import Mathlib

/-!
# Verification of the round-robin scheduler and standings calculator

Shallow embedding of the core logic of the Football Tournament Manager
backend (`main.py`, `schemas.py`): the circle-method round-robin pairing
generator, the standings aggregation and ranking, schedule generation and
the score-update operation.  Persistence is modelled as explicit state
(association lists standing for the MongoDB collections); the `ObjectId`
format check of the boundary layer is out of scope, identifiers are opaque
strings.
-/

/-! ## Scheduler (`round_robin_pairings`, main.py lines 113-131) -/

/-- One rotation step of the working list (main.py line 130):
`teams = [teams[0]] + [teams[-1]] + teams[1:-1]`. -/
def rotateTeams (teams : List String) : List String :=
  teams.take 1 ++ teams.drop (teams.length - 1) ++ (teams.drop 1).dropLast

/-- The pairings of a single round (main.py lines 122-127): pair position
`i` with position `n - 1 - i`, keeping the pair only when neither side is
the `"BYE"` placeholder. -/
def roundPairs (teams : List String) (n half : Nat) : List (String × String) :=
  (List.range half).filterMap (fun i =>
    let a := teams.getD i ""
    let b := teams.getD (n - 1 - i) ""
    if a ≠ "BYE" ∧ b ≠ "BYE" then some (a, b) else none)

/-- The outer loop of main.py lines 121-130: produce the given number of
rounds, rotating the working list after each round.  `n` and `half` are
computed once before the loop, as in the source. -/
def rrRounds : Nat → List String → Nat → Nat → List (List (String × String))
  | 0, _, _, _ => []
  | r + 1, teams, n, half =>
      roundPairs teams n half :: rrRounds r (rotateTeams teams) n half

/-- The function `round_robin_pairings` (main.py lines 113-131): pad with `"BYE"` when
the team count is odd, run `n - 1` rounds, and flatten the schedule in
round order. -/
def round_robin_pairings (team_ids : List String) : List (String × String) :=
  let teams := if team_ids.length % 2 = 1 then team_ids ++ ["BYE"] else team_ids
  let n := teams.length
  (rrRounds (n - 1) teams n (n / 2)).flatten

/-- Whether an output pair is the unordered pair `{u, v}`. -/
def pairPred (u v : String) (p : String × String) : Bool :=
  (p.1 == u && p.2 == v) || (p.1 == v && p.2 == u)

/-! ## Data model (`schemas.py`, and document shapes read back from Mongo) -/

/-- A team document as read back in `standings` (main.py line 191-192):
only `_id` and `name` are consulted; `name` is read with `.get`, hence
optional. -/
structure TeamDoc where
  oidStr : String
  name : Option String
deriving DecidableEq

/-- A match document as stored in the `match` collection: the fields
written by `generate_schedule` / `update_score` and read by `standings`.
Scores are optional (`m.get("home_score", 0)`) and, once written, are
arbitrary Python ints. -/
structure MatchDoc where
  tournament_id : String
  home_team_id : String
  away_team_id : String
  status : String
  home_score : Option Int
  away_score : Option Int
deriving DecidableEq

/-- A standings row (main.py line 192). All counters are Python ints. -/
structure Row where
  team_id : String
  name : Option String
  played : Int
  won : Int
  drawn : Int
  lost : Int
  gf : Int
  ga : Int
  gd : Int
  points : Int
deriving DecidableEq

/-! ## Standings calculator (`standings`, main.py lines 188-226) -/

/-- The all-zero row a team starts from (main.py line 192). -/
def initRow (t : TeamDoc) : Row :=
  { team_id := t.oidStr, name := t.name, played := 0, won := 0, drawn := 0
    lost := 0, gf := 0, ga := 0, gd := 0, points := 0 }

/-- One insertion into the `team_map` dict comprehension: a repeated key
overwrites the value but keeps the first-insertion position, a new key is
appended (Python dict semantics). -/
def dictInsert (tbl : List Row) (r : Row) : List Row :=
  if tbl.any (fun q => q.team_id == r.team_id) then
    tbl.map (fun q => if q.team_id == r.team_id then r else q)
  else
    tbl ++ [r]

/-- The `team_map` dict built from the team documents (main.py line 192), as an
ordered table (the dict's values in insertion order). -/
def initTable (team_docs : List TeamDoc) : List Row :=
  team_docs.foldl (fun tbl t => dictInsert tbl (initRow t)) []

/-- Lookup `team_map.get(tid)` (main.py lines 196-197). -/
def findRow (tbl : List Row) (tid : String) : Option Row :=
  tbl.find? (fun q => q.team_id == tid)

/-- Apply `f` to the row keyed `tid`, leave other rows alone: one in-place
dict-value mutation. -/
def updF (tid : String) (f : Row → Row) (q : Row) : Row :=
  if q.team_id == tid then f q else q

/-- Both identifiers of the match resolve to rows of the table (the
condition of main.py lines 196-199). -/
def resolvesB (tbl : List Row) (m : MatchDoc) : Bool :=
  (findRow tbl m.home_team_id).isSome && (findRow tbl m.away_team_id).isSome

/-- Mutation of the table entry keyed `tid` (`h["field"] += ...` through
the reference obtained from `team_map.get`). -/
def upd (tbl : List Row) (tid : String) (f : Row → Row) : List Row :=
  tbl.map (updF tid f)

/-- Processing of one completed match (main.py lines 195-222).  The
mutations are performed in source order through the dict references; when
the two identifiers coincide the updates compound on the same row, exactly
as in Python. -/
def stepMatch (tbl : List Row) (m : MatchDoc) : List Row :=
  let home := m.home_team_id
  let away := m.away_team_id
  if resolvesB tbl m then
    let hs := m.home_score.getD 0
    let as_ := m.away_score.getD 0
    let t1 := upd tbl home (fun q => { q with played := q.played + 1 })
    let t2 := upd t1 away (fun q => { q with played := q.played + 1 })
    let t3 := upd t2 home (fun q => { q with gf := q.gf + hs })
    let t4 := upd t3 home (fun q => { q with ga := q.ga + as_ })
    let t5 := upd t4 away (fun q => { q with gf := q.gf + as_ })
    let t6 := upd t5 away (fun q => { q with ga := q.ga + hs })
    let t7 := upd t6 home (fun q => { q with gd := q.gf - q.ga })
    let t8 := upd t7 away (fun q => { q with gd := q.gf - q.ga })
    if hs > as_ then
      upd (upd (upd t8 home (fun q => { q with won := q.won + 1 }))
            away (fun q => { q with lost := q.lost + 1 }))
        home (fun q => { q with points := q.points + 3 })
    else if hs < as_ then
      upd (upd (upd t8 away (fun q => { q with won := q.won + 1 }))
            home (fun q => { q with lost := q.lost + 1 }))
        away (fun q => { q with points := q.points + 3 })
    else
      upd (upd (upd (upd t8 home (fun q => { q with drawn := q.drawn + 1 }))
              away (fun q => { q with drawn := q.drawn + 1 }))
          home (fun q => { q with points := q.points + 1 }))
        away (fun q => { q with points := q.points + 1 })
  else
    tbl

/-- The per-row effect of processing one match, used to restate
`stepMatch` as a `map` (every mutation above is a `map` over the table). -/
def matchRowF (m : MatchDoc) (q : Row) : Row :=
  let home := m.home_team_id
  let away := m.away_team_id
  let hs := m.home_score.getD 0
  let as_ := m.away_score.getD 0
  let q1 := updF home (fun q => { q with played := q.played + 1 }) q
  let q2 := updF away (fun q => { q with played := q.played + 1 }) q1
  let q3 := updF home (fun q => { q with gf := q.gf + hs }) q2
  let q4 := updF home (fun q => { q with ga := q.ga + as_ }) q3
  let q5 := updF away (fun q => { q with gf := q.gf + as_ }) q4
  let q6 := updF away (fun q => { q with ga := q.ga + hs }) q5
  let q7 := updF home (fun q => { q with gd := q.gf - q.ga }) q6
  let q8 := updF away (fun q => { q with gd := q.gf - q.ga }) q7
  if hs > as_ then
    updF home (fun q => { q with points := q.points + 3 })
      (updF away (fun q => { q with lost := q.lost + 1 })
        (updF home (fun q => { q with won := q.won + 1 }) q8))
  else if hs < as_ then
    updF away (fun q => { q with points := q.points + 3 })
      (updF home (fun q => { q with lost := q.lost + 1 })
        (updF away (fun q => { q with won := q.won + 1 }) q8))
  else
    updF away (fun q => { q with points := q.points + 1 })
      (updF home (fun q => { q with points := q.points + 1 })
        (updF away (fun q => { q with drawn := q.drawn + 1 })
          (updF home (fun q => { q with drawn := q.drawn + 1 }) q8)))

/-- The match-processing loop (main.py lines 195-222). -/
def processMatches (tbl : List Row) (ms : List MatchDoc) : List Row :=
  ms.foldl stepMatch tbl

/-- The sort key of main.py line 225: the tuple `(points, gd, gf)`. -/
def rowKey (q : Row) : Int × Int × Int :=
  (q.points, q.gd, q.gf)

/-- Lexicographic order on key tuples: Python tuple comparison. -/
def keyLex (a b : Int × Int × Int) : Prop :=
  a.1 < b.1 ∨ (a.1 = b.1 ∧ (a.2.1 < b.2.1 ∨ (a.2.1 = b.2.1 ∧ a.2.2 ≤ b.2.2)))

instance (a b : Int × Int × Int) : Decidable (keyLex a b) := by
  unfold keyLex; infer_instance

/-- Row `x` may come before row `y` in the descending sort of main.py line 225. -/
def sortRel (x y : Row) : Prop :=
  keyLex (rowKey y) (rowKey x)

instance : DecidableRel sortRel := fun x y => by
  unfold sortRel; infer_instance

/-- The `standings` endpoint core (main.py lines 188-226), as a function of the team
documents and the completed matches of the tournament (the two database
reads): build the zeroed table, process every completed match, and apply
Python's stable descending sort on `(points, gd, gf)`. -/
def standingsTable (team_docs : List TeamDoc) (ms : List MatchDoc) : List Row :=
  List.insertionSort sortRel (processMatches (initTable team_docs) ms)

/-- Sum of the `won` column. -/
def sumWon (tbl : List Row) : Int :=
  (tbl.map Row.won).sum

/-- Sum of the `drawn` column. -/
def sumDrawn (tbl : List Row) : Int :=
  (tbl.map Row.drawn).sum

/-- A match is decisive when the two (defaulted) scores differ. -/
def decisiveB (m : MatchDoc) : Bool :=
  m.home_score.getD 0 != m.away_score.getD 0

/-- Follows the spec's words (claim C2): the home row after a completed
match, per Section 4.2 of the specification. -/
def homeRowSpec (hs as_ : Int) (h : Row) : Row :=
  { h with
    played := h.played + 1
    gf := h.gf + hs
    ga := h.ga + as_
    gd := (h.gf + hs) - (h.ga + as_)
    won := h.won + (if as_ < hs then 1 else 0)
    lost := h.lost + (if hs < as_ then 1 else 0)
    drawn := h.drawn + (if hs = as_ then 1 else 0)
    points := h.points + (if as_ < hs then 3 else if hs = as_ then 1 else 0) }

/-- Follows the spec's words (claim C2): the away row after a completed
match, per Section 4.2 of the specification. -/
def awayRowSpec (hs as_ : Int) (a : Row) : Row :=
  { a with
    played := a.played + 1
    gf := a.gf + as_
    ga := a.ga + hs
    gd := (a.gf + as_) - (a.ga + hs)
    won := a.won + (if hs < as_ then 1 else 0)
    lost := a.lost + (if as_ < hs then 1 else 0)
    drawn := a.drawn + (if hs = as_ then 1 else 0)
    points := a.points + (if hs < as_ then 3 else if hs = as_ then 1 else 0) }

/-- The per-row invariant of the specification (Sections 3 and 8). -/
def RowInv (q : Row) : Prop :=
  q.gd = q.gf - q.ga ∧ q.points = 3 * q.won + q.drawn

/-! ## Boundary layer state (`generate_schedule`, `update_score`) -/

/-- A tournament document: the only field the scheduling endpoint reads is
`team_ids` (main.py line 139). -/
structure TournamentDoc where
  name : String
  team_ids : List String
deriving DecidableEq

/-- A stored match: document plus its identifier. -/
structure StoredMatch where
  oidStr : String
  doc : MatchDoc
deriving DecidableEq

/-- The slice of database state the two mutating endpoints touch.
`nextId` models Mongo's fresh-identifier generation for
`create_document`. -/
structure DB where
  tournaments : List (String × TournamentDoc)
  matchColl : List StoredMatch
  nextId : Nat
deriving DecidableEq

/-- An `HTTPException` raised by an endpoint. -/
structure HTTPError where
  status : Nat
  detail : String
deriving DecidableEq

/-- The call `create_document("match", match)`: insert with a fresh identifier,
returning the new identifier. -/
def createMatchDoc (db : DB) (m : MatchDoc) : String × DB :=
  let newId := "m" ++ toString db.nextId
  (newId, { db with matchColl := db.matchColl ++ [⟨newId, m⟩], nextId := db.nextId + 1 })

/-- The `generate_schedule` endpoint (main.py lines 134-153): look up the tournament,
reject fewer than two teams with a 400 before creating anything, otherwise
materialize one scheduled match per pairing and return the created
identifiers.  The state is threaded explicitly; error exits return the
state unchanged. -/
def generate_schedule (db : DB) (tournament_id : String) :
    Except HTTPError (List String) × DB :=
  match (db.tournaments.find? (fun p => p.1 == tournament_id)).map Prod.snd with
  | none => (Except.error ⟨404, "Tournament not found"⟩, db)
  | some t =>
      let team_ids := t.team_ids
      if team_ids.length < 2 then
        (Except.error ⟨400, "At least two teams required"⟩, db)
      else
        let fin := (round_robin_pairings team_ids).foldl
          (fun (acc : List String × DB) pr =>
            let md : MatchDoc :=
              { tournament_id := tournament_id, home_team_id := pr.1
                away_team_id := pr.2, status := "scheduled"
                home_score := none, away_score := none }
            let res := createMatchDoc acc.2 md
            (acc.1 ++ [res.1], res.2))
          ([], db)
        (Except.ok fin.1, fin.2)

/-- The body of a score-update request (main.py lines 159-162).  The
declared request model constrains the scores to be ints and nothing more:
any `Int` passes validation. -/
structure UpdateScoreRequest where
  match_id : String
  home_score : Int
  away_score : Int
deriving DecidableEq

/-- The `update_score` endpoint (main.py lines 173-182): 404 when the match is absent,
otherwise `$set` status to completed and store both scores as given. -/
def update_score (db : DB) (p : UpdateScoreRequest) : Except HTTPError Unit × DB :=
  match db.matchColl.find? (fun sm => sm.oidStr == p.match_id) with
  | none => (Except.error ⟨404, "Match not found"⟩, db)
  | some _ =>
      (Except.ok (),
        { db with
          matchColl := db.matchColl.map (fun sm =>
            if sm.oidStr == p.match_id then
              { sm with doc :=
                { sm.doc with
                  status := "completed",
                  home_score := some p.home_score,
                  away_score := some p.away_score } }
            else sm) })

/-- The constraint the `Match` schema (schemas.py lines 42-49) declares on
stored scores: both are non-negative when present. -/
def matchSchemaOk (m : MatchDoc) : Bool :=
  m.home_score.all (fun s => 0 ≤ s) && m.away_score.all (fun s => 0 ≤ s)

/-! ## Helper lemmas: the standings step as a `map` over the table -/

lemma matchRowF_team_id (m : MatchDoc) (q : Row) :
    (matchRowF m q).team_id = q.team_id := by
  by_cases hh : (q.team_id == m.home_team_id) = true <;>
    by_cases ha : (q.team_id == m.away_team_id) = true <;>
      simp [matchRowF, updF, hh, ha, apply_ite Row.team_id]

lemma stepMatch_not_resolved (tbl : List Row) (m : MatchDoc)
    (h : resolvesB tbl m = false) : stepMatch tbl m = tbl := by
  simp [stepMatch, h]

lemma stepMatch_eq_map (tbl : List Row) (m : MatchDoc)
    (h : resolvesB tbl m = true) : stepMatch tbl m = tbl.map (matchRowF m) := by
  unfold stepMatch
  rw [if_pos h]
  unfold upd
  simp only [List.map_map]
  rcases lt_trichotomy (m.home_score.getD 0) (m.away_score.getD 0) with hc | hc | hc
  · rw [if_neg (not_lt.mpr hc.le), if_pos hc]
    apply List.map_congr_left
    intro q _
    simp only [Function.comp_apply]
    unfold matchRowF
    rw [if_neg (not_lt.mpr hc.le), if_pos hc]
  · rw [if_neg (by rw [hc]; exact lt_irrefl _), if_neg (by rw [hc]; exact lt_irrefl _)]
    apply List.map_congr_left
    intro q _
    simp only [Function.comp_apply]
    unfold matchRowF
    rw [if_neg (by rw [hc]; exact lt_irrefl _), if_neg (by rw [hc]; exact lt_irrefl _)]
  · rw [if_pos hc]
    apply List.map_congr_left
    intro q _
    simp only [Function.comp_apply]
    unfold matchRowF
    rw [if_pos hc]

lemma findRow_map_team_id_eq (tbl : List Row) (F : Row → Row)
    (hF : ∀ q, (F q).team_id = q.team_id) (tid : String) :
    findRow (tbl.map F) tid = (findRow tbl tid).map F := by
  unfold findRow
  rw [List.find?_map]
  have he : ((fun q => q.team_id == tid) ∘ F) = (fun q => q.team_id == tid) := by
    funext q
    simp [Function.comp, hF]
  rw [he]

lemma teamIds_stepMatch (tbl : List Row) (m : MatchDoc) :
    (stepMatch tbl m).map Row.team_id = tbl.map Row.team_id := by
  by_cases h : resolvesB tbl m = true
  · rw [stepMatch_eq_map tbl m h, List.map_map]
    congr 1
    funext q
    exact matchRowF_team_id m q
  · rw [stepMatch_not_resolved tbl m (by simpa using h)]

lemma findRow_isSome_iff (tbl : List Row) (tid : String) :
    (findRow tbl tid).isSome ↔ tid ∈ tbl.map Row.team_id := by
  unfold findRow
  rw [List.find?_isSome]
  simp only [List.mem_map, beq_iff_eq]

lemma findRow_stepMatch_isSome (tbl : List Row) (m : MatchDoc) (tid : String) :
    (findRow (stepMatch tbl m) tid).isSome = (findRow tbl tid).isSome := by
  have h1 := findRow_isSome_iff (stepMatch tbl m) tid
  have h2 := findRow_isSome_iff tbl tid
  rw [teamIds_stepMatch] at h1
  by_cases hb : tid ∈ tbl.map Row.team_id
  · rw [h1.mpr hb, h2.mpr hb]
  · cases hc1 : (findRow (stepMatch tbl m) tid).isSome
    · cases hc2 : (findRow tbl tid).isSome
      · rfl
      · exact absurd (h2.mp hc2) hb
    · exact absurd (h1.mp hc1) hb

lemma resolvesB_stepMatch (tbl : List Row) (m' m : MatchDoc) :
    resolvesB (stepMatch tbl m') m = resolvesB tbl m := by
  unfold resolvesB
  rw [findRow_stepMatch_isSome, findRow_stepMatch_isSome]

lemma findRow_stepMatch_of_resolves (tbl : List Row) (m : MatchDoc)
    (h : resolvesB tbl m = true) (tid : String) :
    findRow (stepMatch tbl m) tid = (findRow tbl tid).map (matchRowF m) := by
  rw [stepMatch_eq_map tbl m h]
  exact findRow_map_team_id_eq tbl _ (matchRowF_team_id m) tid

lemma matchRowF_other (m : MatchDoc) (q : Row)
    (hh : q.team_id ≠ m.home_team_id) (ha : q.team_id ≠ m.away_team_id) :
    matchRowF m q = q := by
  have hh' : (q.team_id == m.home_team_id) = false := by
    simpa using hh
  have ha' : (q.team_id == m.away_team_id) = false := by
    simpa using ha
  simp only [matchRowF, updF, hh', ha', Bool.false_eq_true, if_false]
  split_ifs <;> rfl

lemma matchRowF_home (m : MatchDoc) (q : Row) (hh : q.team_id = m.home_team_id)
    (hne : m.home_team_id ≠ m.away_team_id) :
    matchRowF m q = homeRowSpec (m.home_score.getD 0) (m.away_score.getD 0) q := by
  have hh' : (q.team_id == m.home_team_id) = true := by
    simp [hh]
  have ha' : (q.team_id == m.away_team_id) = false := by
    rw [hh]
    simpa using hne
  rcases lt_trichotomy (m.away_score.getD 0) (m.home_score.getD 0) with hlt | heq | hgt
  · have h1 : m.home_score.getD 0 > m.away_score.getD 0 := hlt
    simp [matchRowF, updF, hh', ha', h1, homeRowSpec, hlt, not_lt.mpr hlt.le, hlt.ne, hlt.ne']
  · simp [matchRowF, updF, hh', ha', homeRowSpec, heq, lt_irrefl]
  · have h1 : ¬ (m.home_score.getD 0 > m.away_score.getD 0) := not_lt.mpr hgt.le
    simp [matchRowF, updF, hh', ha', h1, homeRowSpec, hgt, not_lt.mpr hgt.le, hgt.ne, hgt.ne']

lemma matchRowF_away (m : MatchDoc) (q : Row) (ha : q.team_id = m.away_team_id)
    (hne : m.home_team_id ≠ m.away_team_id) :
    matchRowF m q = awayRowSpec (m.home_score.getD 0) (m.away_score.getD 0) q := by
  have ha' : (q.team_id == m.away_team_id) = true := by
    simp [ha]
  have hh' : (q.team_id == m.home_team_id) = false := by
    rw [ha]
    simpa using fun h => hne h.symm
  rcases lt_trichotomy (m.away_score.getD 0) (m.home_score.getD 0) with hlt | heq | hgt
  · have h1 : m.home_score.getD 0 > m.away_score.getD 0 := hlt
    simp [matchRowF, updF, hh', ha', h1, awayRowSpec, hlt, not_lt.mpr hlt.le, hlt.ne, hlt.ne']
  · simp [matchRowF, updF, hh', ha', awayRowSpec, heq, lt_irrefl]
  · have h1 : ¬ (m.home_score.getD 0 > m.away_score.getD 0) := not_lt.mpr hgt.le
    simp [matchRowF, updF, hh', ha', h1, awayRowSpec, hgt, not_lt.mpr hgt.le, hgt.ne, hgt.ne']

lemma findRow_some_team_id {tbl : List Row} {tid : String} {q : Row}
    (h : findRow tbl tid = some q) : q.team_id = tid := by
  have hp := List.find?_some h
  simpa using hp

lemma resolvesB_of_found {tbl : List Row} {m : MatchDoc} {h a : Row}
    (hh : findRow tbl m.home_team_id = some h)
    (ha : findRow tbl m.away_team_id = some a) : resolvesB tbl m = true := by
  unfold resolvesB
  rw [hh, ha]
  rfl

lemma stepMatch_found_home {tbl : List Row} {m : MatchDoc} {h a : Row}
    (hh : findRow tbl m.home_team_id = some h)
    (ha : findRow tbl m.away_team_id = some a)
    (hne : m.home_team_id ≠ m.away_team_id) :
    findRow (stepMatch tbl m) m.home_team_id =
      some (homeRowSpec (m.home_score.getD 0) (m.away_score.getD 0) h) := by
  rw [findRow_stepMatch_of_resolves tbl m (resolvesB_of_found hh ha), hh]
  simp only [Option.map_some']
  rw [matchRowF_home m h (findRow_some_team_id hh) hne]

lemma stepMatch_found_away {tbl : List Row} {m : MatchDoc} {h a : Row}
    (hh : findRow tbl m.home_team_id = some h)
    (ha : findRow tbl m.away_team_id = some a)
    (hne : m.home_team_id ≠ m.away_team_id) :
    findRow (stepMatch tbl m) m.away_team_id =
      some (awayRowSpec (m.home_score.getD 0) (m.away_score.getD 0) a) := by
  rw [findRow_stepMatch_of_resolves tbl m (resolvesB_of_found hh ha), ha]
  simp only [Option.map_some']
  rw [matchRowF_away m a (findRow_some_team_id ha) hne]

lemma findRow_stepMatch_other (tbl : List Row) (m : MatchDoc) (tid : String)
    (hh : tid ≠ m.home_team_id) (ha : tid ≠ m.away_team_id) :
    findRow (stepMatch tbl m) tid = findRow tbl tid := by
  by_cases h : resolvesB tbl m = true
  · rw [findRow_stepMatch_of_resolves tbl m h]
    cases hf : findRow tbl tid with
    | none => rfl
    | some q =>
        have hq := findRow_some_team_id hf
        simp [matchRowF_other m q (by rw [hq]; exact hh) (by rw [hq]; exact ha)]
  · rw [stepMatch_not_resolved tbl m (by simpa using h)]

lemma stepMatch_default_scores (tbl : List Row) (m : MatchDoc) :
    stepMatch tbl m =
      stepMatch tbl
        { m with home_score := some (m.home_score.getD 0)
                 away_score := some (m.away_score.getD 0) } := rfl

/-- Claim **C2** (amended: the two resolving identifiers must moreover be
distinct): for a completed match with scores `hs`-`as_` whose home and
away identifiers resolve to two different rows, the step updates the home
row by `played+1`, `gf+hs`, `ga+as_`, `gd = gf-ga`, and `won+1, points+3`
on a home win / `lost+1` on a home loss / `drawn+1, points+1` on a draw,
and symmetrically for the away row. -/
theorem C2_standings_step_effect (tbl : List Row) (m : MatchDoc)
    (hs as_ : Int) (h a : Row)
    (hhs : m.home_score = some hs) (has : m.away_score = some as_)
    (hh : findRow tbl m.home_team_id = some h)
    (ha : findRow tbl m.away_team_id = some a)
    (hne : m.home_team_id ≠ m.away_team_id) :
    findRow (stepMatch tbl m) m.home_team_id = some (homeRowSpec hs as_ h) ∧
    findRow (stepMatch tbl m) m.away_team_id = some (awayRowSpec hs as_ a) := by
  constructor
  · have hx := stepMatch_found_home hh ha hne
    rw [hhs, has] at hx
    simpa using hx
  · have hx := stepMatch_found_away hh ha hne
    rw [hhs, has] at hx
    simpa using hx

/-- Claim **C2** counterexample: a completed self-match (home and away both
`"t1"`, score 1-0) satisfies the claim's hypothesis — both identifiers
resolve to a row — yet that row's `played` counter rises from 0 to 2, not
by 1, because the two dict references alias the same row. -/
theorem C2_counterexample :
    (findRow (initTable [⟨"t1", some "A"⟩]) "t1").map Row.played = some 0 ∧
    (findRow (stepMatch (initTable [⟨"t1", some "A"⟩])
        ⟨"T", "t1", "t1", "completed", some 1, some 0⟩) "t1").map Row.played =
      some 2 := by
  constructor
  · rfl
  · rfl

/-- Claim **C2** witness: the two-team table `{t1, t2}` with the completed match
`t1 2-1 t2`. -/
theorem C2_standings_step_effect_witness :
    ((⟨"T", "t1", "t2", "completed", some 2, some 1⟩ : MatchDoc).home_score =
        some 2) ∧
    ((⟨"T", "t1", "t2", "completed", some 2, some 1⟩ : MatchDoc).away_score =
        some 1) ∧
    (findRow (initTable [⟨"t1", some "X"⟩, ⟨"t2", some "Y"⟩]) "t1" =
        some (initRow ⟨"t1", some "X"⟩)) ∧
    (findRow (initTable [⟨"t1", some "X"⟩, ⟨"t2", some "Y"⟩]) "t2" =
        some (initRow ⟨"t2", some "Y"⟩)) ∧
    ("t1" : String) ≠ "t2" ∧
    (findRow (stepMatch (initTable [⟨"t1", some "X"⟩, ⟨"t2", some "Y"⟩])
          ⟨"T", "t1", "t2", "completed", some 2, some 1⟩) "t1" =
        some (homeRowSpec 2 1 (initRow ⟨"t1", some "X"⟩)) ∧
      findRow (stepMatch (initTable [⟨"t1", some "X"⟩, ⟨"t2", some "Y"⟩])
          ⟨"T", "t1", "t2", "completed", some 2, some 1⟩) "t2" =
        some (awayRowSpec 2 1 (initRow ⟨"t2", some "Y"⟩))) :=
  ⟨rfl, rfl, rfl, rfl, by decide,
    C2_standings_step_effect _ _ 2 1 _ _ rfl rfl rfl rfl (by decide)⟩

/-- Claim **C10**: in the standings computation a completed match with missing
scores is not skipped: each missing score defaults to 0 (first conjunct,
for any match), and a resolving match missing both scores is counted as a
0-0 draw, `drawn+1` and `points+1` for each of the two rows. -/
theorem C10_missing_scores_default (tbl : List Row) (m : MatchDoc) (h a : Row)
    (hhs : m.home_score = none) (has : m.away_score = none)
    (hh : findRow tbl m.home_team_id = some h)
    (ha : findRow tbl m.away_team_id = some a)
    (hne : m.home_team_id ≠ m.away_team_id) :
    (∀ (tbl2 : List Row) (m2 : MatchDoc),
        stepMatch tbl2 m2 =
          stepMatch tbl2
            { m2 with home_score := some (m2.home_score.getD 0)
                      away_score := some (m2.away_score.getD 0) }) ∧
    findRow (stepMatch tbl m) m.home_team_id = some (homeRowSpec 0 0 h) ∧
    findRow (stepMatch tbl m) m.away_team_id = some (awayRowSpec 0 0 a) := by
  refine ⟨fun tbl2 m2 => stepMatch_default_scores tbl2 m2, ?_, ?_⟩
  · have hx := stepMatch_found_home hh ha hne
    rw [hhs, has] at hx
    simpa using hx
  · have hx := stepMatch_found_away hh ha hne
    rw [hhs, has] at hx
    simpa using hx

/-- Claim **C10** witness: the two-team table `{t1, t2}` with a completed match
between them whose score fields are absent. -/
theorem C10_missing_scores_default_witness :
    ((⟨"T", "t1", "t2", "completed", none, none⟩ : MatchDoc).home_score =
        none) ∧
    ((⟨"T", "t1", "t2", "completed", none, none⟩ : MatchDoc).away_score =
        none) ∧
    (findRow (initTable [⟨"t1", some "X"⟩, ⟨"t2", some "Y"⟩]) "t1" =
        some (initRow ⟨"t1", some "X"⟩)) ∧
    (findRow (initTable [⟨"t1", some "X"⟩, ⟨"t2", some "Y"⟩]) "t2" =
        some (initRow ⟨"t2", some "Y"⟩)) ∧
    ("t1" : String) ≠ "t2" ∧
    (findRow (stepMatch (initTable [⟨"t1", some "X"⟩, ⟨"t2", some "Y"⟩])
          ⟨"T", "t1", "t2", "completed", none, none⟩) "t1" =
        some (homeRowSpec 0 0 (initRow ⟨"t1", some "X"⟩)) ∧
      findRow (stepMatch (initTable [⟨"t1", some "X"⟩, ⟨"t2", some "Y"⟩])
          ⟨"T", "t1", "t2", "completed", none, none⟩) "t2" =
        some (awayRowSpec 0 0 (initRow ⟨"t2", some "Y"⟩))) :=
  ⟨rfl, rfl, rfl, rfl, by decide,
    ((C10_missing_scores_default (initTable [⟨"t1", some "X"⟩, ⟨"t2", some "Y"⟩])
        ⟨"T", "t1", "t2", "completed", none, none⟩ (initRow ⟨"t1", some "X"⟩)
        (initRow ⟨"t2", some "Y"⟩) rfl rfl rfl rfl (by decide)).2.1),
    ((C10_missing_scores_default (initTable [⟨"t1", some "X"⟩, ⟨"t2", some "Y"⟩])
        ⟨"T", "t1", "t2", "completed", none, none⟩ (initRow ⟨"t1", some "X"⟩)
        (initRow ⟨"t2", some "Y"⟩) rfl rfl rfl rfl (by decide)).2.2)⟩

/-! ## Row invariants (claim C3) -/

lemma rowInv_initRow (t : TeamDoc) : RowInv (initRow t) := by
  constructor <;> rfl

lemma rowInv_matchRowF (m : MatchDoc) (q : Row) (hq : RowInv q) :
    RowInv (matchRowF m q) := by
  obtain ⟨h1, h2⟩ := hq
  unfold RowInv
  by_cases hh : (q.team_id == m.home_team_id) = true <;>
    by_cases ha : (q.team_id == m.away_team_id) = true <;>
      simp only [matchRowF, updF, hh, ha, Bool.false_eq_true, if_true, if_false] <;>
        split_ifs <;> refine ⟨?_, ?_⟩ <;> (try simp) <;> omega

lemma mem_dictInsert {tbl : List Row} {r q : Row}
    (h : q ∈ dictInsert tbl r) : q = r ∨ q ∈ tbl := by
  unfold dictInsert at h
  split at h
  · obtain ⟨q0, hq0, hq⟩ := List.mem_map.mp h
    by_cases hc : (q0.team_id == r.team_id) = true
    · rw [hc] at hq
      simp at hq
      exact Or.inl hq.symm
    · rw [if_neg hc] at hq
      exact Or.inr (hq ▸ hq0)
  · rcases List.mem_append.mp h with h' | h'
    · exact Or.inr h'
    · simp at h'
      exact Or.inl h'

lemma initTable_forall_aux (P : Row → Prop) (hP : ∀ t, P (initRow t)) :
    ∀ (docs : List TeamDoc) (tbl : List Row), (∀ q ∈ tbl, P q) →
      ∀ q ∈ docs.foldl (fun tbl t => dictInsert tbl (initRow t)) tbl, P q := by
  intro docs
  induction docs with
  | nil => intro tbl h q hq; exact h q hq
  | cons t ts ih =>
      intro tbl h q hq
      refine ih (dictInsert tbl (initRow t)) ?_ q hq
      intro q' hq'
      rcases mem_dictInsert hq' with h' | h'
      · rw [h']; exact hP t
      · exact h q' h'

lemma initTable_rowInv (docs : List TeamDoc) :
    ∀ q ∈ initTable docs, RowInv q := by
  refine initTable_forall_aux RowInv rowInv_initRow docs [] ?_
  intro q hq
  exact absurd hq (List.not_mem_nil q)

lemma stepMatch_rowInv (tbl : List Row) (m : MatchDoc)
    (h : ∀ q ∈ tbl, RowInv q) : ∀ q ∈ stepMatch tbl m, RowInv q := by
  by_cases hr : resolvesB tbl m = true
  · rw [stepMatch_eq_map tbl m hr]
    intro q hq
    obtain ⟨q0, hq0, rfl⟩ := List.mem_map.mp hq
    exact rowInv_matchRowF m q0 (h q0 hq0)
  · rw [stepMatch_not_resolved tbl m (by simpa using hr)]
    exact h

lemma processMatches_rowInv :
    ∀ (ms : List MatchDoc) (tbl : List Row), (∀ q ∈ tbl, RowInv q) →
      ∀ q ∈ processMatches tbl ms, RowInv q := by
  intro ms
  induction ms with
  | nil => intro tbl h; exact h
  | cons m ms ih =>
      intro tbl h
      exact ih (stepMatch tbl m) (stepMatch_rowInv tbl m h)

/-- Claim **C3**: for every team set and every list of completed matches, every
row of the computed standings table satisfies `gd = gf - ga` and
`points = 3*won + drawn`. -/
theorem C3_row_invariants (team_docs : List TeamDoc) (ms : List MatchDoc) :
    ∀ q ∈ standingsTable team_docs ms,
      q.gd = q.gf - q.ga ∧ q.points = 3 * q.won + 1 * q.drawn := by
  intro q hq
  have hmem : q ∈ processMatches (initTable team_docs) ms :=
    (List.perm_insertionSort sortRel _).mem_iff.mp hq
  have hinv :=
    processMatches_rowInv ms (initTable team_docs) (initTable_rowInv team_docs)
      q hmem
  exact ⟨hinv.1, by rw [hinv.2]; ring⟩

/-- Claim **C3** witness: the singleton team set with no matches. -/
theorem C3_row_invariants_witness :
    initRow ⟨"t1", some "X"⟩ ∈ standingsTable [⟨"t1", some "X"⟩] [] ∧
      ((initRow ⟨"t1", some "X"⟩).gd =
          (initRow ⟨"t1", some "X"⟩).gf - (initRow ⟨"t1", some "X"⟩).ga ∧
        (initRow ⟨"t1", some "X"⟩).points =
          3 * (initRow ⟨"t1", some "X"⟩).won +
            1 * (initRow ⟨"t1", some "X"⟩).drawn) :=
  ⟨by decide,
    C3_row_invariants [⟨"t1", some "X"⟩] [] (initRow ⟨"t1", some "X"⟩)
      (by decide)⟩

/-! ## Sorting (claim C4) -/

lemma keyLex_refl (a : Int × Int × Int) : keyLex a a := by
  unfold keyLex
  omega

instance : IsTotal Row sortRel :=
  ⟨fun x y => by
    unfold sortRel keyLex rowKey
    dsimp only
    omega⟩

instance : IsTrans Row sortRel :=
  ⟨fun x y z hxy hyz => by
    unfold sortRel keyLex rowKey at *
    dsimp only at *
    omega⟩

lemma not_sortRel_key_ne {x y : Row} (h : ¬ sortRel x y) :
    rowKey y ≠ rowKey x := by
  intro he
  apply h
  unfold sortRel
  rw [he]
  exact keyLex_refl (rowKey x)

lemma filter_orderedInsert_key (k : Int × Int × Int) (x : Row) (l : List Row) :
    (List.orderedInsert sortRel x l).filter (fun q => rowKey q == k) =
      if rowKey x == k then x :: l.filter (fun q => rowKey q == k)
      else l.filter (fun q => rowKey q == k) := by
  induction l with
  | nil =>
      rw [List.orderedInsert, List.filter_cons]
  | cons y ys ih =>
      rw [List.orderedInsert]
      by_cases hr : sortRel x y
      · rw [if_pos hr, List.filter_cons]
      · rw [if_neg hr, List.filter_cons, List.filter_cons, ih]
        have hne : rowKey y ≠ rowKey x := not_sortRel_key_ne hr
        by_cases hx : (rowKey x == k) = true
        · have hy : (rowKey y == k) = false := by
            have hxk : rowKey x = k := by simpa using hx
            rw [Bool.eq_false_iff]
            simp only [ne_eq, beq_iff_eq]
            rw [← hxk]
            exact hne
          rw [hx, hy]
          simp
        · have hx' : (rowKey x == k) = false := by
            simpa using hx
          rw [hx']
          simp
  
lemma filter_insertionSort_key (k : Int × Int × Int) (l : List Row) :
    (List.insertionSort sortRel l).filter (fun q => rowKey q == k) =
      l.filter (fun q => rowKey q == k) := by
  induction l with
  | nil => rfl
  | cons x xs ih =>
      rw [List.insertionSort, filter_orderedInsert_key, ih, List.filter_cons]

/-- Claim **C4**: the standings output is sorted in descending lexicographic
order of the tuple `(points, gd, gf)` (the relation `sortRel` puts `x`
before `y` when `rowKey y ≤ rowKey x` lexicographically), and for every
key value the rows carrying that exact key tuple appear in the same
relative order as in the unsorted table, i.e. the sort is stable with no
tertiary tie-break. -/
theorem C4_sorted_and_stable (team_docs : List TeamDoc) (ms : List MatchDoc) :
    List.Sorted sortRel (standingsTable team_docs ms) ∧
    ∀ k : Int × Int × Int,
      (standingsTable team_docs ms).filter (fun q => rowKey q == k) =
        (processMatches (initTable team_docs) ms).filter
          (fun q => rowKey q == k) :=
  ⟨List.sorted_insertionSort sortRel _, fun k => filter_insertionSort_key k _⟩

/-! ## Orphaned matches (claim C6) -/

lemma teamIds_processMatches :
    ∀ (ms : List MatchDoc) (tbl : List Row),
      (processMatches tbl ms).map Row.team_id = tbl.map Row.team_id := by
  intro ms
  induction ms with
  | nil => intro tbl; rfl
  | cons m ms ih =>
      intro tbl
      have h1 : processMatches tbl (m :: ms) = processMatches (stepMatch tbl m) ms := rfl
      rw [h1, ih, teamIds_stepMatch]

lemma mem_teamIds_dictInsert (tbl : List Row) (r : Row) (tid : String) :
    tid ∈ (dictInsert tbl r).map Row.team_id ↔
      tid = r.team_id ∨ tid ∈ tbl.map Row.team_id := by
  unfold dictInsert
  by_cases h : tbl.any (fun q => q.team_id == r.team_id) = true
  · rw [if_pos h]
    have hmap : (tbl.map (fun q => if q.team_id == r.team_id then r else q)).map
        Row.team_id = tbl.map Row.team_id := by
      rw [List.map_map]
      apply List.map_congr_left
      intro q _
      by_cases hc : (q.team_id == r.team_id) = true
      · have hqe : q.team_id = r.team_id := by simpa using hc
        simp only [Function.comp_apply, hc, if_true]
        exact hqe.symm
      · simp only [Function.comp_apply, hc]
        rw [if_neg]
        simp [hc]
    rw [hmap]
    constructor
    · exact Or.inr
    · rintro (rfl | hm)
      · obtain ⟨q, hq, hqe⟩ := List.any_eq_true.mp h
        have : q.team_id = r.team_id := by simpa using hqe
        exact List.mem_map.mpr ⟨q, hq, this⟩
      · exact hm
  · rw [if_neg h, List.map_append]
    simp only [List.mem_append, List.map_cons, List.map_nil, List.mem_singleton]
    tauto

lemma mem_teamIds_initTable (docs : List TeamDoc) (tid : String) :
    tid ∈ (initTable docs).map Row.team_id ↔ tid ∈ docs.map TeamDoc.oidStr := by
  have haux : ∀ (ds : List TeamDoc) (tbl : List Row),
      tid ∈ (ds.foldl (fun tbl t => dictInsert tbl (initRow t)) tbl).map Row.team_id ↔
        tid ∈ ds.map TeamDoc.oidStr ∨ tid ∈ tbl.map Row.team_id := by
    intro ds
    induction ds with
    | nil => intro tbl; simp
    | cons t ts ih =>
        intro tbl
        rw [List.foldl_cons, ih, mem_teamIds_dictInsert]
        simp only [List.map_cons, List.mem_cons, initRow]
        tauto
  rw [initTable, haux docs []]
  simp

lemma resolvesB_processMatches_orphan (team_docs : List TeamDoc)
    (ms : List MatchDoc) (m : MatchDoc)
    (h : m.home_team_id ∉ team_docs.map TeamDoc.oidStr ∨
        m.away_team_id ∉ team_docs.map TeamDoc.oidStr) :
    resolvesB (processMatches (initTable team_docs) ms) m = false := by
  have hids := teamIds_processMatches ms (initTable team_docs)
  unfold resolvesB
  rcases h with h | h
  · have hf : (findRow (processMatches (initTable team_docs) ms)
        m.home_team_id).isSome = false := by
      rw [Bool.eq_false_iff]
      intro hc
      have := (findRow_isSome_iff _ _).mp hc
      rw [hids, mem_teamIds_initTable] at this
      exact h this
    rw [hf, Bool.false_and]
  · have hf : (findRow (processMatches (initTable team_docs) ms)
        m.away_team_id).isSome = false := by
      rw [Bool.eq_false_iff]
      intro hc
      have := (findRow_isSome_iff _ _).mp hc
      rw [hids, mem_teamIds_initTable] at this
      exact h this
    rw [hf, Bool.and_false]

/-- Claim **C6**: appending a completed match whose home or away identifier does
not occur among the supplied team documents leaves the standings output
exactly unchanged; the computation is a total function, so no error is
raised while processing the orphaned match. -/
theorem C6_orphan_skipped (team_docs : List TeamDoc) (ms : List MatchDoc)
    (m : MatchDoc)
    (h : m.home_team_id ∉ team_docs.map TeamDoc.oidStr ∨
        m.away_team_id ∉ team_docs.map TeamDoc.oidStr) :
    standingsTable team_docs (ms ++ [m]) = standingsTable team_docs ms := by
  unfold standingsTable
  congr 1
  unfold processMatches
  rw [List.foldl_append, List.foldl_cons, List.foldl_nil]
  exact stepMatch_not_resolved _ m (resolvesB_processMatches_orphan team_docs ms m h)

/-- Claim **C6** witness: the team set `{t1}` and a completed match referencing
the unknown identifier `zz`. -/
theorem C6_orphan_skipped_witness :
    ((⟨"T", "zz", "t1", "completed", some 1, some 0⟩ : MatchDoc).home_team_id ∉
        ([⟨"t1", some "X"⟩] : List TeamDoc).map TeamDoc.oidStr ∨
      (⟨"T", "zz", "t1", "completed", some 1, some 0⟩ : MatchDoc).away_team_id ∉
        ([⟨"t1", some "X"⟩] : List TeamDoc).map TeamDoc.oidStr) ∧
    standingsTable [⟨"t1", some "X"⟩]
        ([] ++ [⟨"T", "zz", "t1", "completed", some 1, some 0⟩]) =
      standingsTable [⟨"t1", some "X"⟩] [] :=
  ⟨Or.inl (by decide),
    C6_orphan_skipped [⟨"t1", some "X"⟩] []
      ⟨"T", "zz", "t1", "completed", some 1, some 0⟩ (Or.inl (by decide))⟩

/-! ## Schedule generation guard (claim C7) and score update (claim C8) -/

/-- Claim **C7**: schedule generation on an existing tournament with fewer than
two teams fails with the 400 client error "At least two teams required"
and returns the database state unchanged — in particular no match records
are created. -/
theorem C7_insufficient_teams (db : DB) (tournament_id : String)
    (t : TournamentDoc)
    (ht : (db.tournaments.find? (fun p => p.1 == tournament_id)).map Prod.snd =
        some t)
    (hlt : t.team_ids.length < 2) :
    generate_schedule db tournament_id =
      (Except.error ⟨400, "At least two teams required"⟩, db) := by
  unfold generate_schedule
  rw [ht]
  dsimp only
  rw [if_pos hlt]

/-- Claim **C7** witness: a stored tournament with a single team. -/
theorem C7_insufficient_teams_witness :
    ((DB.mk [("T1", ⟨"Cup", ["a"]⟩)] [] 0).tournaments.find?
          (fun p => p.1 == "T1")).map Prod.snd =
        some (⟨"Cup", ["a"]⟩ : TournamentDoc) ∧
    (TournamentDoc.mk "Cup" ["a"]).team_ids.length < 2 ∧
    generate_schedule (DB.mk [("T1", ⟨"Cup", ["a"]⟩)] [] 0) "T1" =
      (Except.error ⟨400, "At least two teams required"⟩,
        DB.mk [("T1", ⟨"Cup", ["a"]⟩)] [] 0) :=
  ⟨rfl, by decide,
    C7_insufficient_teams (DB.mk [("T1", ⟨"Cup", ["a"]⟩)] [] 0) "T1"
      ⟨"Cup", ["a"]⟩ rfl (by decide)⟩

/-- Claim **C8** is violated by the code (code bug): the score-update request
model declares plain ints with no lower bound, so `update_score` accepts
the request `{match_id: "m0", home_score: -1, away_score: 0}` on an
existing scheduled match, reports success, and stores the match as
completed with `home_score = -1` — contradicting the non-negativity
(`ge=0`) that the `Match` schema itself declares for stored scores. -/
theorem C8_negative_score_stored :
    (update_score (DB.mk [] [⟨"m0", ⟨"T", "h", "a", "scheduled", none, none⟩⟩] 0)
          ⟨"m0", -1, 0⟩).1 = Except.ok () ∧
    (update_score (DB.mk [] [⟨"m0", ⟨"T", "h", "a", "scheduled", none, none⟩⟩] 0)
          ⟨"m0", -1, 0⟩).2.matchColl =
      [⟨"m0", ⟨"T", "h", "a", "completed", some (-1), some 0⟩⟩] ∧
    matchSchemaOk ⟨"T", "h", "a", "completed", some (-1), some 0⟩ = false := by
  refine ⟨rfl, ?_, rfl⟩
  rfl

/-! ## Column sums (claim C5) -/

lemma sum_map_add (f g : Row → Int) (l : List Row) :
    (l.map (fun q => f q + g q)).sum = (l.map f).sum + (l.map g).sum := by
  induction l with
  | nil => simp
  | cons q l ih =>
      simp only [List.map_cons, List.sum_cons, ih]
      ring

lemma sum_map_ite (p : Row → Bool) (c : Int) (l : List Row) :
    (l.map (fun q => if p q then c else 0)).sum = c * (l.countP p : Int) := by
  induction l with
  | nil => simp
  | cons q l ih =>
      rw [List.map_cons, List.sum_cons, ih, List.countP_cons]
      by_cases h : p q = true <;> simp [h] <;> ring

lemma nodup_countP_eq_one {l : List String} (hnd : l.Nodup) {s : String}
    (hm : s ∈ l) : l.countP (fun x => x == s) = 1 := by
  induction l with
  | nil => simp at hm
  | cons a l ih =>
      rw [List.countP_cons]
      rcases List.mem_cons.mp hm with he | hm'
      · have hnin : a ∉ l := (List.nodup_cons.mp hnd).1
        have h0 : l.countP (fun x => x == s) = 0 := by
          rw [List.countP_eq_zero]
          intro x hx
          simp only [beq_iff_eq]
          intro hxe
          refine hnin ?_
          rw [← he, ← hxe]
          exact hx
        simp [h0, he]
        intro x hx hxe
        exact hnin (hxe ▸ hx)
      · have hih := ih (List.nodup_cons.mp hnd).2 hm'
        have hne : (a == s) = false := by
          simp only [beq_eq_false_iff_ne, ne_eq]
          intro he
          exact (List.nodup_cons.mp hnd).1 (he ▸ hm')
        simp [hih, hne]

lemma countId_eq_one {tbl : List Row} {tid : String}
    (hnd : (tbl.map Row.team_id).Nodup) (hf : (findRow tbl tid).isSome = true) :
    tbl.countP (fun q => q.team_id == tid) = 1 := by
  have hmem : tid ∈ tbl.map Row.team_id := (findRow_isSome_iff tbl tid).mp hf
  have hc := nodup_countP_eq_one hnd hmem
  rwa [List.countP_map] at hc

lemma matchRowF_won_decisive_home (m : MatchDoc) (q : Row)
    (hc : m.away_score.getD 0 < m.home_score.getD 0) :
    (matchRowF m q).won =
      q.won + (if q.team_id == m.home_team_id then 1 else 0) := by
  by_cases hh : (q.team_id == m.home_team_id) = true <;>
    by_cases ha : (q.team_id == m.away_team_id) = true <;>
      simp [matchRowF, updF, hh, ha, hc, not_lt.mpr hc.le, apply_ite Row.won]

lemma matchRowF_won_decisive_away (m : MatchDoc) (q : Row)
    (hc : m.home_score.getD 0 < m.away_score.getD 0) :
    (matchRowF m q).won =
      q.won + (if q.team_id == m.away_team_id then 1 else 0) := by
  by_cases hh : (q.team_id == m.home_team_id) = true <;>
    by_cases ha : (q.team_id == m.away_team_id) = true <;>
      simp [matchRowF, updF, hh, ha, hc, not_lt.mpr hc.le, apply_ite Row.won]

lemma matchRowF_won_draw (m : MatchDoc) (q : Row)
    (hc : m.home_score.getD 0 = m.away_score.getD 0) :
    (matchRowF m q).won = q.won := by
  by_cases hh : (q.team_id == m.home_team_id) = true <;>
    by_cases ha : (q.team_id == m.away_team_id) = true <;>
      simp [matchRowF, updF, hh, ha, hc, lt_irrefl, apply_ite Row.won]

lemma matchRowF_drawn_draw (m : MatchDoc) (q : Row)
    (hc : m.home_score.getD 0 = m.away_score.getD 0) :
    (matchRowF m q).drawn =
      q.drawn + ((if q.team_id == m.home_team_id then 1 else 0) +
        (if q.team_id == m.away_team_id then 1 else 0)) := by
  by_cases hh : (q.team_id == m.home_team_id) = true <;>
    by_cases ha : (q.team_id == m.away_team_id) = true <;>
      simp [matchRowF, updF, hh, ha, hc, lt_irrefl, apply_ite Row.drawn] <;>
        omega

lemma matchRowF_drawn_decisive (m : MatchDoc) (q : Row)
    (hc : ¬ m.home_score.getD 0 = m.away_score.getD 0) :
    (matchRowF m q).drawn = q.drawn := by
  rcases lt_or_gt_of_ne hc with hlt | hgt
  · by_cases hh : (q.team_id == m.home_team_id) = true <;>
      by_cases ha : (q.team_id == m.away_team_id) = true <;>
        simp [matchRowF, updF, hh, ha, hlt, not_lt.mpr hlt.le,
          apply_ite Row.drawn]
  · by_cases hh : (q.team_id == m.home_team_id) = true <;>
      by_cases ha : (q.team_id == m.away_team_id) = true <;>
        simp [matchRowF, updF, hh, ha, hgt, not_lt.mpr (le_of_lt hgt),
          apply_ite Row.drawn]

lemma teamIds_dictInsert_replace (tbl : List Row) (r : Row) :
    ((tbl.map (fun q => if q.team_id == r.team_id then r else q)).map
      Row.team_id) = tbl.map Row.team_id := by
  rw [List.map_map]
  apply List.map_congr_left
  intro q _
  by_cases hc : (q.team_id == r.team_id) = true
  · have hqe : q.team_id = r.team_id := by simpa using hc
    simp only [Function.comp_apply, hc, if_true]
    exact hqe.symm
  · simp only [Function.comp_apply, hc]
    rw [if_neg]
    simp [hc]

lemma nodup_teamIds_dictInsert {tbl : List Row} (r : Row)
    (hnd : (tbl.map Row.team_id).Nodup) :
    ((dictInsert tbl r).map Row.team_id).Nodup := by
  unfold dictInsert
  by_cases h : tbl.any (fun q => q.team_id == r.team_id) = true
  · rw [if_pos h, teamIds_dictInsert_replace]
    exact hnd
  · rw [if_neg h, List.map_append]
    rw [List.nodup_append]
    refine ⟨hnd, by simp, ?_⟩
    intro s hs
    simp only [List.map_cons, List.map_nil, List.mem_singleton]
    intro he
    obtain ⟨q, hq, hqe⟩ := List.mem_map.mp hs
    refine h ?_
    rw [List.any_eq_true]
    refine ⟨q, hq, ?_⟩
    simp [hqe, he]

lemma nodup_teamIds_initTable (docs : List TeamDoc) :
    ((initTable docs).map Row.team_id).Nodup := by
  have haux : ∀ (ds : List TeamDoc) (tbl : List Row),
      (tbl.map Row.team_id).Nodup →
      ((ds.foldl (fun tbl t => dictInsert tbl (initRow t)) tbl).map
        Row.team_id).Nodup := by
    intro ds
    induction ds with
    | nil => intro tbl h; exact h
    | cons t ts ih =>
        intro tbl h
        exact ih (dictInsert tbl (initRow t)) (nodup_teamIds_dictInsert _ h)
  exact haux docs [] (by simp)

lemma sumWon_stepMatch (tbl : List Row) (m : MatchDoc)
    (hnd : (tbl.map Row.team_id).Nodup) :
    sumWon (stepMatch tbl m) =
      sumWon tbl + (if resolvesB tbl m && decisiveB m then 1 else 0) := by
  by_cases hr : resolvesB tbl m = true
  · obtain ⟨hf1, hf2⟩ : (findRow tbl m.home_team_id).isSome = true ∧
        (findRow tbl m.away_team_id).isSome = true := by
      simpa [resolvesB] using hr
    rw [stepMatch_eq_map tbl m hr]
    unfold sumWon
    rcases lt_trichotomy (m.home_score.getD 0) (m.away_score.getD 0) with hc | hc | hc
    · have hmap : (tbl.map (matchRowF m)).map Row.won =
          tbl.map (fun q =>
            q.won + (if q.team_id == m.away_team_id then 1 else 0)) := by
        rw [List.map_map]
        apply List.map_congr_left
        intro q _
        exact matchRowF_won_decisive_away m q hc
      rw [hmap, sum_map_add Row.won
        (fun q => if q.team_id == m.away_team_id then (1 : Int) else 0),
        sum_map_ite (fun q => q.team_id == m.away_team_id) 1 tbl,
        countId_eq_one hnd hf2]
      have hdec : decisiveB m = true := by
        simp only [decisiveB, bne_iff_ne, ne_eq]
        exact fun he => absurd hc (by rw [he]; exact lt_irrefl _)
      rw [hr, hdec]
      simp
    · have hmap : (tbl.map (matchRowF m)).map Row.won = tbl.map Row.won := by
        rw [List.map_map]
        apply List.map_congr_left
        intro q _
        exact matchRowF_won_draw m q hc
      rw [hmap]
      have hdec : decisiveB m = false := by
        simp only [decisiveB, bne_eq_false_iff_eq]
        exact hc
      rw [hr, hdec]
      simp
    · have hmap : (tbl.map (matchRowF m)).map Row.won =
          tbl.map (fun q =>
            q.won + (if q.team_id == m.home_team_id then 1 else 0)) := by
        rw [List.map_map]
        apply List.map_congr_left
        intro q _
        exact matchRowF_won_decisive_home m q hc
      rw [hmap, sum_map_add Row.won
        (fun q => if q.team_id == m.home_team_id then (1 : Int) else 0),
        sum_map_ite (fun q => q.team_id == m.home_team_id) 1 tbl,
        countId_eq_one hnd hf1]
      have hdec : decisiveB m = true := by
        simp only [decisiveB, bne_iff_ne, ne_eq]
        exact fun he => absurd hc (by rw [he]; exact lt_irrefl _)
      rw [hr, hdec]
      simp
  · have hr' : resolvesB tbl m = false := by simpa using hr
    rw [stepMatch_not_resolved tbl m hr', hr']
    simp

lemma sumDrawn_stepMatch (tbl : List Row) (m : MatchDoc)
    (hnd : (tbl.map Row.team_id).Nodup) :
    sumDrawn (stepMatch tbl m) =
      sumDrawn tbl + (if resolvesB tbl m && !decisiveB m then 2 else 0) := by
  by_cases hr : resolvesB tbl m = true
  · obtain ⟨hf1, hf2⟩ : (findRow tbl m.home_team_id).isSome = true ∧
        (findRow tbl m.away_team_id).isSome = true := by
      simpa [resolvesB] using hr
    rw [stepMatch_eq_map tbl m hr]
    unfold sumDrawn
    by_cases hc : m.home_score.getD 0 = m.away_score.getD 0
    · have hmap : (tbl.map (matchRowF m)).map Row.drawn =
          tbl.map (fun q => q.drawn +
            ((if q.team_id == m.home_team_id then 1 else 0) +
              (if q.team_id == m.away_team_id then 1 else 0))) := by
        rw [List.map_map]
        apply List.map_congr_left
        intro q _
        exact matchRowF_drawn_draw m q hc
      rw [hmap, sum_map_add Row.drawn
        (fun q => (if q.team_id == m.home_team_id then (1 : Int) else 0) +
          (if q.team_id == m.away_team_id then (1 : Int) else 0)),
        sum_map_add (fun q => if q.team_id == m.home_team_id then (1 : Int) else 0)
          (fun q => if q.team_id == m.away_team_id then (1 : Int) else 0),
        sum_map_ite (fun q => q.team_id == m.home_team_id) 1 tbl,
        sum_map_ite (fun q => q.team_id == m.away_team_id) 1 tbl,
        countId_eq_one hnd hf1, countId_eq_one hnd hf2]
      have hdec : decisiveB m = false := by
        simp only [decisiveB, bne_eq_false_iff_eq]
        exact hc
      rw [hr, hdec]
      simp
    · have hmap : (tbl.map (matchRowF m)).map Row.drawn = tbl.map Row.drawn := by
        rw [List.map_map]
        apply List.map_congr_left
        intro q _
        exact matchRowF_drawn_decisive m q hc
      rw [hmap]
      have hdec : decisiveB m = true := by
        simp only [decisiveB, bne_iff_ne, ne_eq]
        exact hc
      rw [hr, hdec]
      simp
  · have hr' : resolvesB tbl m = false := by simpa using hr
    rw [stepMatch_not_resolved tbl m hr', hr']
    simp

lemma sumWon_processMatches :
    ∀ (ms : List MatchDoc) (tbl : List Row), (tbl.map Row.team_id).Nodup →
      sumWon (processMatches tbl ms) =
        sumWon tbl +
          ((ms.countP (fun m => resolvesB tbl m && decisiveB m) : Nat) : Int) := by
  intro ms
  induction ms with
  | nil => intro tbl _; simp [processMatches]
  | cons m ms ih =>
      intro tbl hnd
      have hstep : processMatches tbl (m :: ms) =
          processMatches (stepMatch tbl m) ms := rfl
      have hnd' : ((stepMatch tbl m).map Row.team_id).Nodup := by
        rw [teamIds_stepMatch]
        exact hnd
      rw [hstep, ih (stepMatch tbl m) hnd', sumWon_stepMatch tbl m hnd]
      have hpred : (fun m2 => resolvesB (stepMatch tbl m) m2 && decisiveB m2) =
          (fun m2 => resolvesB tbl m2 && decisiveB m2) := by
        funext m2
        rw [resolvesB_stepMatch]
      rw [hpred, List.countP_cons]
      by_cases hp : (resolvesB tbl m && decisiveB m) = true <;>
        simp [hp] <;> push_cast <;> ring

lemma sumDrawn_processMatches :
    ∀ (ms : List MatchDoc) (tbl : List Row), (tbl.map Row.team_id).Nodup →
      sumDrawn (processMatches tbl ms) =
        sumDrawn tbl +
          2 * ((ms.countP (fun m => resolvesB tbl m && !decisiveB m) : Nat) : Int) := by
  intro ms
  induction ms with
  | nil => intro tbl _; simp [processMatches]
  | cons m ms ih =>
      intro tbl hnd
      have hstep : processMatches tbl (m :: ms) =
          processMatches (stepMatch tbl m) ms := rfl
      have hnd' : ((stepMatch tbl m).map Row.team_id).Nodup := by
        rw [teamIds_stepMatch]
        exact hnd
      rw [hstep, ih (stepMatch tbl m) hnd', sumDrawn_stepMatch tbl m hnd]
      have hpred : (fun m2 => resolvesB (stepMatch tbl m) m2 && !decisiveB m2) =
          (fun m2 => resolvesB tbl m2 && !decisiveB m2) := by
        funext m2
        rw [resolvesB_stepMatch]
      rw [hpred, List.countP_cons]
      by_cases hp : (resolvesB tbl m && !decisiveB m) = true <;>
        simp [hp] <;> push_cast <;> ring

lemma sumWon_initTable (docs : List TeamDoc) : sumWon (initTable docs) = 0 := by
  unfold sumWon
  apply List.sum_eq_zero
  intro x hx
  obtain ⟨q, hq, rfl⟩ := List.mem_map.mp hx
  have hz : ∀ q ∈ initTable docs, q.won = 0 :=
    initTable_forall_aux (fun q => q.won = 0) (fun t => rfl) docs []
      (fun q h => absurd h (List.not_mem_nil q))
  exact hz q hq

lemma sumDrawn_initTable (docs : List TeamDoc) :
    sumDrawn (initTable docs) = 0 := by
  unfold sumDrawn
  apply List.sum_eq_zero
  intro x hx
  obtain ⟨q, hq, rfl⟩ := List.mem_map.mp hx
  have hz : ∀ q ∈ initTable docs, q.drawn = 0 :=
    initTable_forall_aux (fun q => q.drawn = 0) (fun t => rfl) docs []
      (fun q h => absurd h (List.not_mem_nil q))
  exact hz q hq

lemma sumWon_standingsTable (docs : List TeamDoc) (ms : List MatchDoc) :
    sumWon (standingsTable docs ms) =
      sumWon (processMatches (initTable docs) ms) := by
  unfold standingsTable sumWon
  exact ((List.perm_insertionSort sortRel _).map Row.won).sum_eq

lemma sumDrawn_standingsTable (docs : List TeamDoc) (ms : List MatchDoc) :
    sumDrawn (standingsTable docs ms) =
      sumDrawn (processMatches (initTable docs) ms) := by
  unfold standingsTable sumDrawn
  exact ((List.perm_insertionSort sortRel _).map Row.drawn).sum_eq

/-- Claim **C5** (amended: only matches whose two identifiers both resolve to
rows are counted, and the per-match "exactly two teams" statement requires
the two identifiers to be distinct): across the standings table, the sum
of `won` equals the number of resolving decisive matches, the sum of
`drawn` equals twice the number of resolving drawn matches and hence is
even, and each resolving drawn match with distinct identifiers adds 1 to
the `drawn` counter of exactly the home row and the away row, leaving
every other row's entry unchanged. -/
theorem C5_column_sums (team_docs : List TeamDoc) (ms : List MatchDoc) :
    sumWon (standingsTable team_docs ms) =
      ((ms.countP (fun m =>
          resolvesB (initTable team_docs) m && decisiveB m) : Nat) : Int) ∧
    sumDrawn (standingsTable team_docs ms) =
      2 * ((ms.countP (fun m =>
          resolvesB (initTable team_docs) m && !decisiveB m) : Nat) : Int) ∧
    Even (sumDrawn (standingsTable team_docs ms)) ∧
    (∀ (tbl : List Row) (m : MatchDoc) (h a : Row),
        findRow tbl m.home_team_id = some h →
        findRow tbl m.away_team_id = some a →
        m.home_team_id ≠ m.away_team_id →
        m.home_score.getD 0 = m.away_score.getD 0 →
        (findRow (stepMatch tbl m) m.home_team_id).map Row.drawn =
            some (h.drawn + 1) ∧
          (findRow (stepMatch tbl m) m.away_team_id).map Row.drawn =
            some (a.drawn + 1) ∧
          ∀ tid, tid ≠ m.home_team_id → tid ≠ m.away_team_id →
            findRow (stepMatch tbl m) tid = findRow tbl tid) := by
  have hnd := nodup_teamIds_initTable team_docs
  refine ⟨?_, ?_, ?_, ?_⟩
  · rw [sumWon_standingsTable, sumWon_processMatches ms _ hnd,
      sumWon_initTable]
    ring
  · rw [sumDrawn_standingsTable, sumDrawn_processMatches ms _ hnd,
      sumDrawn_initTable]
    ring
  · rw [sumDrawn_standingsTable, sumDrawn_processMatches ms _ hnd,
      sumDrawn_initTable]
    exact ⟨((ms.countP _ : Nat) : Int), by ring⟩
  · intro tbl m h a hh ha hne hdraw
    refine ⟨?_, ?_, ?_⟩
    · rw [stepMatch_found_home hh ha hne]
      simp only [Option.map_some', homeRowSpec]
      rw [if_pos hdraw]
    · rw [stepMatch_found_away hh ha hne]
      simp only [Option.map_some', awayRowSpec]
      rw [if_pos hdraw]
    · intro tid h1 h2
      exact findRow_stepMatch_other tbl m tid h1 h2

/-- Claim **C5** counterexample: with teams `{t1, t2}` and the single decisive
completed match `x 1-0 y` (both identifiers orphaned), the sum of `won`
over the table is 0 while the number of decisive completed matches is 1,
so the sum does not equal the number of decisive completed matches as the
claim states. -/
theorem C5_counterexample :
    sumWon (standingsTable [⟨"t1", some "A"⟩, ⟨"t2", some "B"⟩]
        [⟨"T", "x", "y", "completed", some 1, some 0⟩]) = 0 ∧
    ([(⟨"T", "x", "y", "completed", some 1, some 0⟩ : MatchDoc)].countP
        decisiveB) = 1 := by
  constructor
  · rfl
  · rfl

/-- Claim **C5** witness: two teams, one drawn completed match between them. -/
theorem C5_column_sums_witness :
    (findRow (initTable [⟨"t1", some "X"⟩, ⟨"t2", some "Y"⟩]) "t1" =
        some (initRow ⟨"t1", some "X"⟩)) ∧
    (findRow (initTable [⟨"t1", some "X"⟩, ⟨"t2", some "Y"⟩]) "t2" =
        some (initRow ⟨"t2", some "Y"⟩)) ∧
    ("t1" : String) ≠ "t2" ∧
    ((⟨"T", "t1", "t2", "completed", some 2, some 2⟩ :
        MatchDoc).home_score.getD 0 =
      (⟨"T", "t1", "t2", "completed", some 2, some 2⟩ :
        MatchDoc).away_score.getD 0) ∧
    ((findRow (stepMatch (initTable [⟨"t1", some "X"⟩, ⟨"t2", some "Y"⟩])
          ⟨"T", "t1", "t2", "completed", some 2, some 2⟩) "t1").map Row.drawn =
        some ((initRow ⟨"t1", some "X"⟩).drawn + 1)) :=
  ⟨rfl, rfl, by decide, rfl,
    ((C5_column_sums [⟨"t1", some "X"⟩, ⟨"t2", some "Y"⟩] []).2.2.2
        (initTable [⟨"t1", some "X"⟩, ⟨"t2", some "Y"⟩])
        ⟨"T", "t1", "t2", "completed", some 2, some 2⟩
        (initRow ⟨"t1", some "X"⟩) (initRow ⟨"t2", some "Y"⟩)
        rfl rfl (by decide) rfl).1⟩

/-! ## Scheduler proofs: arithmetic and counting helpers -/

lemma mod_two_cases (a m : Nat) (hm : 0 < m) (h : a < 2 * m) :
    ∃ A, a % m = A ∧ ((a < m ∧ A = a) ∨ (m ≤ a ∧ A = a - m)) := by
  by_cases hc : a < m
  · exact ⟨a, Nat.mod_eq_of_lt hc, Or.inl ⟨hc, rfl⟩⟩
  · push_neg at hc
    refine ⟨a - m, ?_, Or.inr ⟨hc, rfl⟩⟩
    rw [Nat.mod_eq_sub_mod hc, Nat.mod_eq_of_lt (by omega)]

lemma countP_range_eq_one (k i₀ : Nat) (h : i₀ < k) (q : Nat → Bool)
    (hq : ∀ i < k, (q i = true ↔ i = i₀)) :
    (List.range k).countP q = 1 := by
  induction k with
  | zero => omega
  | succ k ih =>
      rw [List.range_succ, List.countP_append]
      by_cases hik : i₀ = k
      · have h0 : (List.range k).countP q = 0 := by
          rw [List.countP_eq_zero]
          intro i hi
          rw [List.mem_range] at hi
          intro hqi
          have := (hq i (by omega)).mp hqi
          omega
        have hk : q k = true := (hq k (by omega)).mpr hik.symm
        rw [h0]
        simp [hk]
      · have hqk : q k = false := by
          cases hc : q k
          · rfl
          · have := (hq k (by omega)).mp hc
            omega
        rw [ih (by omega) (fun i hi => hq i (by omega))]
        simp [hqk]

lemma countP_range_eq_zero (k : Nat) (q : Nat → Bool)
    (hq : ∀ i < k, q i = false) : (List.range k).countP q = 0 := by
  rw [List.countP_eq_zero]
  intro i hi
  rw [List.mem_range] at hi
  rw [hq i hi]
  simp

lemma exists_unique_head_round (m k : Nat) (hk : k < m) :
    ∃ r₀, r₀ < m ∧ ∀ r < m, ((k + r) % m = m - 1 ↔ r = r₀) := by
  refine ⟨m - 1 - k, by omega, ?_⟩
  intro r hr
  obtain ⟨A, hA, hA2⟩ := mod_two_cases (k + r) m (by omega) (by omega)
  rw [hA]
  omega

lemma exists_unique_tail_round (m j k : Nat) (hm : m % 2 = 1) (hj : j < m)
    (hk : k < m) (hne : j ≠ k) :
    ∃ r₀, r₀ < m ∧
      ∀ r < m, ((j + r) % m + (k + r) % m = m - 2 ↔ r = r₀) := by
  have hm0 : 0 < m := by omega
  obtain ⟨c, hc, hcd⟩ : ∃ c, c < m ∧
      (3 * m - 2 - (j + k) = m + c ∨ 3 * m - 2 - (j + k) = 2 * m + c) := by
    have hdm := Nat.div_add_mod (3 * m - 2 - (j + k)) m
    have hmod := Nat.mod_lt (3 * m - 2 - (j + k)) hm0
    have hD1 : 1 ≤ (3 * m - 2 - (j + k)) / m := by
      rw [Nat.le_div_iff_mul_le hm0]
      omega
    have hD2 : (3 * m - 2 - (j + k)) / m < 3 := by
      rw [Nat.div_lt_iff_lt_mul hm0]
      omega
    have hD12 : (3 * m - 2 - (j + k)) / m = 1 ∨
        (3 * m - 2 - (j + k)) / m = 2 := by omega
    rcases hD12 with h | h
    · rw [h] at hdm
      exact ⟨(3 * m - 2 - (j + k)) % m, hmod, Or.inl (by omega)⟩
    · rw [h] at hdm
      exact ⟨(3 * m - 2 - (j + k)) % m, hmod, Or.inr (by omega)⟩
  by_cases hpar : c % 2 = 0
  · refine ⟨c / 2, by omega, ?_⟩
    intro r hr
    obtain ⟨A, hA, hA2⟩ := mod_two_cases (j + r) m hm0 (by omega)
    obtain ⟨B, hB, hB2⟩ := mod_two_cases (k + r) m hm0 (by omega)
    rw [hA, hB]
    omega
  · refine ⟨(c + m) / 2, by omega, ?_⟩
    intro r hr
    obtain ⟨A, hA, hA2⟩ := mod_two_cases (j + r) m hm0 (by omega)
    obtain ⟨B, hB, hB2⟩ := mod_two_cases (k + r) m hm0 (by omega)
    rw [hA, hB]
    omega

lemma sum_range_eq_countP (k : Nat) (g : Nat → Nat) (C : Nat → Bool)
    (hg : ∀ j < k, g j = if C j then 1 else 0) :
    ((List.range k).map g).sum = (List.range k).countP C := by
  induction k with
  | zero => rfl
  | succ k ih =>
      rw [List.range_succ, List.map_append, List.sum_append,
        List.countP_append, ih (fun j hj => hg j (by omega))]
      have hk := hg k (by omega)
      by_cases hc : C k = true <;> simp [hc] at hk ⊢ <;> simp [hk]

lemma countP_filterMap_guard {α β : Type} (g : α → β) (P : β → Prop)
    [DecidablePred P] (p : β → Bool) (hp : ∀ b, p b = true → P b) :
    ∀ L : List α,
      (L.filterMap (fun i => if P (g i) then some (g i) else none)).countP p =
        L.countP (fun i => p (g i)) := by
  intro L
  induction L with
  | nil => rfl
  | cons i L ih =>
      rw [List.filterMap_cons]
      by_cases hP : P (g i)
      · rw [if_pos hP, List.countP_cons, List.countP_cons, ih]
      · rw [if_neg hP, ih, List.countP_cons]
        have hfalse : p (g i) = false := by
          cases hpg : p (g i)
          · rfl
          · exact absurd (hp _ hpg) hP
        rw [hfalse]
        simp

lemma length_filterMap_guard {α β : Type} (g : α → β) (P : β → Prop)
    [DecidablePred P] :
    ∀ L : List α,
      (L.filterMap (fun i => if P (g i) then some (g i) else none)).length =
        L.countP (fun i => decide (P (g i))) := by
  intro L
  induction L with
  | nil => rfl
  | cons i L ih =>
      rw [List.filterMap_cons, List.countP_cons]
      by_cases hP : P (g i)
      · rw [if_pos hP, List.length_cons, ih]
        simp [hP]
      · rw [if_neg hP, ih]
        simp [hP]

lemma getD_inj (teams : List String) (hnd : teams.Nodup) {i j : Nat}
    (hi : i < teams.length) (hj : j < teams.length)
    (he : teams.getD i "" = teams.getD j "") : i = j := by
  rw [List.getD_eq_getElem teams "" hi, List.getD_eq_getElem teams "" hj] at he
  exact hnd.getElem_inj_iff.mp he

/-! ## Scheduler proofs: the working list after `r` rotations -/

lemma rotateTeams_cons (x : String) (t : List String) (ht : t ≠ []) :
    rotateTeams (x :: t) = x :: t.rotate (t.length - 1) := by
  have hlen : 1 ≤ t.length := List.length_pos.mpr ht
  unfold rotateTeams
  rw [List.rotate_eq_drop_append_take (by omega), ← List.dropLast_eq_take]
  have h2 : (x :: t).length - 1 = (t.length - 1) + 1 := by
    simp only [List.length_cons]
    omega
  rw [h2]
  have h3 : (x :: t).drop ((t.length - 1) + 1) = t.drop (t.length - 1) := rfl
  have h4 : (x :: t).drop 1 = t := rfl
  rw [h3, h4]
  simp

lemma iterate_rotateTeams (x : String) (t : List String) (ht : t ≠ []) :
    ∀ r, rotateTeams^[r] (x :: t) = x :: t.rotate ((t.length - 1) * r) := by
  intro r
  induction r with
  | zero => simp
  | succ r ih =>
      rw [Function.iterate_succ_apply', ih]
      have ht' : t.rotate ((t.length - 1) * r) ≠ [] := by
        intro hc
        have hlen := congrArg List.length hc
        rw [List.length_rotate] at hlen
        exact ht (List.length_eq_zero.mp hlen)
      rw [rotateTeams_cons x _ ht', List.length_rotate, List.rotate_rotate,
        Nat.mul_succ]

lemma getD_rotate_cons (x : String) (t : List String) (s q : Nat)
    (hq : q < t.length) :
    (x :: t.rotate s).getD (q + 1) "" = t.getD ((q + s) % t.length) "" := by
  rw [List.getD_cons_succ]
  have hq' : q < (t.rotate s).length := by
    rw [List.length_rotate]
    exact hq
  rw [List.getD_eq_getElem _ "" hq', List.getElem_rotate,
    List.getD_eq_getElem _ "" (Nat.mod_lt _ (by omega))]

lemma getD_teamsAt (x : String) (t : List String) (j k : Nat)
    (hk : k < t.length) :
    (x :: t.rotate ((t.length - 1) * j)).getD (1 + ((k + j) % t.length)) "" =
      t.getD k "" := by
  have hm0 : 0 < t.length := by omega
  rw [Nat.add_comm 1 ((k + j) % t.length),
    getD_rotate_cons x t _ _ (Nat.mod_lt _ hm0), Nat.mod_add_mod]
  congr 1
  have harith : k + j + (t.length - 1) * j = k + t.length * j := by
    have h1 : j + (t.length - 1) * j = t.length * j := by
      have h2 : t.length - 1 + 1 = t.length := by omega
      calc j + (t.length - 1) * j = (t.length - 1) * j + 1 * j := by ring
      _ = ((t.length - 1) + 1) * j := by rw [Nat.add_mul]
      _ = t.length * j := by rw [h2]
    omega
  rw [harith, Nat.add_mul_mod_self_left, Nat.mod_eq_of_lt hk]

/-! ## Scheduler proofs: counting matching slots inside one round -/

lemma countP_slots (teams : List String) (half : Nat)
    (hnd : teams.Nodup) (h2 : teams.length = 2 * half) (u v : String)
    (pu pv : Nat) (hpu : pu < teams.length) (hpv : pv < teams.length)
    (hu : teams.getD pu "" = u) (hv : teams.getD pv "" = v) (hne : pu ≠ pv) :
    (List.range half).countP (fun i =>
        pairPred u v (teams.getD i "", teams.getD (teams.length - 1 - i) "")) =
      if pu + pv = teams.length - 1 then 1 else 0 := by
  have hchar : ∀ i, i < half →
      ((pairPred u v (teams.getD i "",
          teams.getD (teams.length - 1 - i) "")) = true ↔
        ((i = pu ∧ teams.length - 1 - i = pv) ∨
          (i = pv ∧ teams.length - 1 - i = pu))) := by
    intro i hi
    have hi_n : i < teams.length := by omega
    have hi2 : teams.length - 1 - i < teams.length := by omega
    unfold pairPred
    simp only [Bool.or_eq_true, Bool.and_eq_true, beq_iff_eq]
    constructor
    · rintro (⟨ha, hb⟩ | ⟨ha, hb⟩)
      · exact Or.inl ⟨getD_inj teams hnd hi_n hpu (ha.trans hu.symm),
          getD_inj teams hnd hi2 hpv (hb.trans hv.symm)⟩
      · exact Or.inr ⟨getD_inj teams hnd hi_n hpv (ha.trans hv.symm),
          getD_inj teams hnd hi2 hpu (hb.trans hu.symm)⟩
    · rintro (⟨he1, he2⟩ | ⟨he1, he2⟩)
      · exact Or.inl ⟨by rw [he1, hu], by rw [he2, hv]⟩
      · exact Or.inr ⟨by rw [he1, hv], by rw [he2, hu]⟩
  by_cases hsum : pu + pv = teams.length - 1
  · rw [if_pos hsum]
    refine countP_range_eq_one half (min pu pv) (by omega) _ ?_
    intro i hi
    rw [hchar i hi]
    constructor
    · rintro (⟨h1, h2'⟩ | ⟨h1, h2'⟩) <;> omega
    · intro hi0
      rcases Nat.lt_or_ge pu pv with hpp | hpp
      · left
        omega
      · right
        omega
  · rw [if_neg hsum]
    apply countP_range_eq_zero
    intro i hi
    cases hc : pairPred u v (teams.getD i "",
        teams.getD (teams.length - 1 - i) "")
    · rfl
    · have := (hchar i hi).mp hc
      omega

lemma countP_slots_single (teams : List String) (half : Nat)
    (hnd : teams.Nodup) (h2 : teams.length = 2 * half) (w : String)
    (pw : Nat) (hpw : pw < teams.length) (hw : teams.getD pw "" = w) :
    (List.range half).countP (fun i =>
        (teams.getD i "" == w) || (teams.getD (teams.length - 1 - i) "" == w)) =
      1 := by
  have hchar : ∀ i, i < half →
      (((teams.getD i "" == w) ||
          (teams.getD (teams.length - 1 - i) "" == w)) = true ↔
        (i = pw ∨ teams.length - 1 - i = pw)) := by
    intro i hi
    have hi_n : i < teams.length := by omega
    have hi2 : teams.length - 1 - i < teams.length := by omega
    simp only [Bool.or_eq_true, beq_iff_eq]
    constructor
    · rintro (ha | hb)
      · exact Or.inl (getD_inj teams hnd hi_n hpw (ha.trans hw.symm))
      · exact Or.inr (getD_inj teams hnd hi2 hpw (hb.trans hw.symm))
    · rintro (he | he)
      · exact Or.inl (by rw [he, hw])
      · exact Or.inr (by rw [he, hw])
  refine countP_range_eq_one half (if pw < half then pw else teams.length - 1 - pw)
    (by split <;> omega) _ ?_
  intro i hi
  rw [hchar i hi]
  constructor
  · rintro (he | he) <;> split <;> omega
  · intro hi0
    split at hi0 <;> omega

/-! ## Scheduler proofs: flattening the rounds -/

lemma rrRounds_eq_map :
    ∀ (k : Nat) (teams : List String) (n half : Nat),
      rrRounds k teams n half =
        (List.range k).map
          (fun j => roundPairs (rotateTeams^[j] teams) n half) := by
  intro k
  induction k with
  | zero => intro teams n half; rfl
  | succ k ih =>
      intro teams n half
      rw [List.range_succ_eq_map, List.map_cons, List.map_map]
      show roundPairs teams n half :: rrRounds k (rotateTeams teams) n half = _
      rw [ih (rotateTeams teams) n half]
      refine List.cons_eq_cons.mpr ⟨rfl, ?_⟩
      apply List.map_congr_left
      intro j _
      simp only [Function.comp_apply]
      rfl

lemma countP_rrRounds_flatten (p : String × String → Bool) (k : Nat)
    (teams : List String) (n half : Nat) :
    ((rrRounds k teams n half).flatten).countP p =
      ((List.range k).map (fun j =>
        (roundPairs (rotateTeams^[j] teams) n half).countP p)).sum := by
  rw [rrRounds_eq_map, List.countP_flatten, List.map_map]
  rfl

lemma length_rrRounds_flatten (k : Nat) (teams : List String) (n half : Nat) :
    ((rrRounds k teams n half).flatten).length =
      ((List.range k).map (fun j =>
        (roundPairs (rotateTeams^[j] teams) n half).length)).sum := by
  rw [rrRounds_eq_map, List.length_flatten, List.map_map]
  rfl

lemma countP_roundPairs (p : String × String → Bool)
    (hp : ∀ pr, p pr = true → pr.1 ≠ "BYE" ∧ pr.2 ≠ "BYE")
    (teams : List String) (n half : Nat) :
    (roundPairs teams n half).countP p =
      (List.range half).countP (fun i =>
        p (teams.getD i "", teams.getD (n - 1 - i) "")) := by
  unfold roundPairs
  exact countP_filterMap_guard
    (fun i => (teams.getD i "", teams.getD (n - 1 - i) ""))
    (fun pr => pr.1 ≠ "BYE" ∧ pr.2 ≠ "BYE") p hp (List.range half)

lemma length_roundPairs (teams : List String) (n half : Nat) :
    (roundPairs teams n half).length =
      (List.range half).countP (fun i =>
        decide (teams.getD i "" ≠ "BYE" ∧ teams.getD (n - 1 - i) "" ≠ "BYE")) := by
  unfold roundPairs
  exact length_filterMap_guard
    (fun i => (teams.getD i "", teams.getD (n - 1 - i) ""))
    (fun pr => pr.1 ≠ "BYE" ∧ pr.2 ≠ "BYE") (List.range half)

lemma pairPred_no_bye {u v : String} (hub : u ≠ "BYE") (hvb : v ≠ "BYE") :
    ∀ pr, pairPred u v pr = true → pr.1 ≠ "BYE" ∧ pr.2 ≠ "BYE" := by
  intro pr h
  unfold pairPred at h
  simp only [Bool.or_eq_true, Bool.and_eq_true, beq_iff_eq] at h
  rcases h with ⟨h1, h2⟩ | ⟨h1, h2⟩ <;> constructor <;>
    simp [h1, h2, hub, hvb]

lemma pairPred_comm (u v : String) : pairPred u v = pairPred v u := by
  funext pr
  unfold pairPred
  rw [Bool.or_comm]

/-! ## Scheduler proofs: every unordered pair appears exactly once -/

lemma countP_pair_rounds_head (x : String) (t : List String)
    (hnd : (x :: t).Nodup) (hev : (x :: t).length % 2 = 0) (k : Nat)
    (hk : k < t.length) (hub : x ≠ "BYE") (hvb : t.getD k "" ≠ "BYE") :
    ((rrRounds t.length (x :: t) (t.length + 1)
        ((t.length + 1) / 2)).flatten).countP (pairPred x (t.getD k "")) = 1 := by
  have ht : t ≠ [] := by
    intro hc
    rw [hc] at hev
    simp at hev
  have hm1 : 1 ≤ t.length := List.length_pos.mpr ht
  have hmodd : t.length % 2 = 1 := by
    simp only [List.length_cons] at hev
    omega
  rw [countP_rrRounds_flatten]
  obtain ⟨r₀, hr₀, hiff⟩ := exists_unique_head_round t.length k hk
  have hg : ∀ r < t.length,
      (roundPairs (rotateTeams^[r] (x :: t)) (t.length + 1)
        ((t.length + 1) / 2)).countP (pairPred x (t.getD k "")) =
      if decide ((k + r) % t.length = t.length - 1) then 1 else 0 := by
    intro r hr
    rw [iterate_rotateTeams x t ht r,
      countP_roundPairs _ (pairPred_no_bye hub hvb)]
    have hteams_len : (x :: t.rotate ((t.length - 1) * r)).length =
        t.length + 1 := by
      simp [List.length_rotate]
    have hnd' : (x :: t.rotate ((t.length - 1) * r)).Nodup :=
      (((List.rotate_perm t ((t.length - 1) * r)).cons x).nodup_iff).mpr hnd
    have hmod_lt : (k + r) % t.length < t.length := Nat.mod_lt _ (by omega)
    have hslots := countP_slots (x :: t.rotate ((t.length - 1) * r))
      ((t.length + 1) / 2) hnd' (by rw [hteams_len]; omega)
      x (t.getD k "") 0 (1 + ((k + r) % t.length))
      (by rw [hteams_len]; omega)
      (by rw [hteams_len]; omega)
      List.getD_cons_zero
      (getD_teamsAt x t r k hk)
      (by omega)
    rw [hteams_len] at hslots
    rw [hslots]
    simp only [decide_eq_true_eq]
    split_ifs <;> omega
  rw [sum_range_eq_countP t.length _ _ hg]
  refine countP_range_eq_one t.length r₀ hr₀ _ ?_
  intro i hi
  simp only [decide_eq_true_eq]
  exact hiff i hi

lemma countP_pair_rounds_tail (x : String) (t : List String)
    (hnd : (x :: t).Nodup) (hev : (x :: t).length % 2 = 0) (j k : Nat)
    (hj : j < t.length) (hk : k < t.length) (hjk : j ≠ k)
    (hub : t.getD j "" ≠ "BYE") (hvb : t.getD k "" ≠ "BYE") :
    ((rrRounds t.length (x :: t) (t.length + 1)
        ((t.length + 1) / 2)).flatten).countP
      (pairPred (t.getD j "") (t.getD k "")) = 1 := by
  have ht : t ≠ [] := by
    intro hc
    rw [hc] at hev
    simp at hev
  have hm1 : 1 ≤ t.length := List.length_pos.mpr ht
  have hmodd : t.length % 2 = 1 := by
    simp only [List.length_cons] at hev
    omega
  have tnd : t.Nodup := (List.nodup_cons.mp hnd).2
  rw [countP_rrRounds_flatten]
  obtain ⟨r₀, hr₀, hiff⟩ :=
    exists_unique_tail_round t.length j k hmodd hj hk hjk
  have hg : ∀ r < t.length,
      (roundPairs (rotateTeams^[r] (x :: t)) (t.length + 1)
        ((t.length + 1) / 2)).countP
          (pairPred (t.getD j "") (t.getD k "")) =
      if decide ((j + r) % t.length + (k + r) % t.length = t.length - 2)
        then 1 else 0 := by
    intro r hr
    rw [iterate_rotateTeams x t ht r,
      countP_roundPairs _ (pairPred_no_bye hub hvb)]
    have hteams_len : (x :: t.rotate ((t.length - 1) * r)).length =
        t.length + 1 := by
      simp [List.length_rotate]
    have hnd' : (x :: t.rotate ((t.length - 1) * r)).Nodup :=
      (((List.rotate_perm t ((t.length - 1) * r)).cons x).nodup_iff).mpr hnd
    have hmodj : (j + r) % t.length < t.length := Nat.mod_lt _ (by omega)
    have hmodk : (k + r) % t.length < t.length := Nat.mod_lt _ (by omega)
    have hne : 1 + ((j + r) % t.length) ≠ 1 + ((k + r) % t.length) := by
      intro heq
      have heq' : (j + r) % t.length = (k + r) % t.length := by omega
      have e1 := getD_teamsAt x t r j hj
      have e2 := getD_teamsAt x t r k hk
      rw [heq'] at e1
      have he : t.getD j "" = t.getD k "" := by
        rw [← e1, ← e2]
      exact hjk (getD_inj t tnd hj hk he)
    have hslots := countP_slots (x :: t.rotate ((t.length - 1) * r))
      ((t.length + 1) / 2) hnd' (by rw [hteams_len]; omega)
      (t.getD j "") (t.getD k "")
      (1 + ((j + r) % t.length)) (1 + ((k + r) % t.length))
      (by rw [hteams_len]; omega)
      (by rw [hteams_len]; omega)
      (getD_teamsAt x t r j hj)
      (getD_teamsAt x t r k hk)
      hne
    rw [hteams_len] at hslots
    rw [hslots]
    simp only [decide_eq_true_eq]
    split_ifs <;> omega
  rw [sum_range_eq_countP t.length _ _ hg]
  refine countP_range_eq_one t.length r₀ hr₀ _ ?_
  intro i hi
  simp only [decide_eq_true_eq]
  exact hiff i hi

lemma countP_pair_rounds_main (x : String) (t : List String)
    (hnd : (x :: t).Nodup) (hev : (x :: t).length % 2 = 0) (u v : String)
    (hu : u ∈ x :: t) (hv : v ∈ x :: t) (huv : u ≠ v)
    (hub : u ≠ "BYE") (hvb : v ≠ "BYE") :
    ((rrRounds t.length (x :: t) (t.length + 1)
        ((t.length + 1) / 2)).flatten).countP (pairPred u v) = 1 := by
  rcases List.mem_cons.mp hu with rfl | hu'
  · rcases List.mem_cons.mp hv with rfl | hv'
    · exact absurd rfl huv
    · obtain ⟨⟨k, hk⟩, hget⟩ := List.mem_iff_get.mp hv'
      have hvk : t.getD k "" = v := by
        rw [List.getD_eq_getElem t "" hk]
        exact hget
      rw [← hvk]
      exact countP_pair_rounds_head u t hnd hev k hk hub
        (by rw [hvk]; exact hvb)
  · rcases List.mem_cons.mp hv with rfl | hv'
    · obtain ⟨⟨k, hk⟩, hget⟩ := List.mem_iff_get.mp hu'
      have huk : t.getD k "" = u := by
        rw [List.getD_eq_getElem t "" hk]
        exact hget
      rw [pairPred_comm, ← huk]
      exact countP_pair_rounds_head v t hnd hev k hk hvb
        (by rw [huk]; exact hub)
    · obtain ⟨⟨j, hj⟩, hgetj⟩ := List.mem_iff_get.mp hu'
      obtain ⟨⟨k, hk⟩, hgetk⟩ := List.mem_iff_get.mp hv'
      have huj : t.getD j "" = u := by
        rw [List.getD_eq_getElem t "" hj]
        exact hgetj
      have hvk : t.getD k "" = v := by
        rw [List.getD_eq_getElem t "" hk]
        exact hgetk
      have hjk : j ≠ k := by
        intro he
        refine huv ?_
        rw [← huj, ← hvk, he]
      rw [← huj, ← hvk]
      exact countP_pair_rounds_tail x t hnd hev j k hj hk hjk
        (by rw [huj]; exact hub) (by rw [hvk]; exact hvb)

/-! ## Scheduler proofs: output length -/

lemma sum_range_const (k c : Nat) :
    ((List.range k).map (fun _ => c)).sum = k * c := by
  induction k with
  | zero => simp
  | succ k ih =>
      rw [List.range_succ, List.map_append, List.sum_append, ih]
      simp [Nat.succ_mul]

lemma length_roundPairs_no_bye (teams : List String) (n half : Nat)
    (hlen : teams.length = n) (hhalf : n = 2 * half) (hb : "BYE" ∉ teams) :
    (roundPairs teams n half).length = half := by
  rw [length_roundPairs]
  have hcount : (List.range half).countP (fun i =>
      decide (teams.getD i "" ≠ "BYE" ∧ teams.getD (n - 1 - i) "" ≠ "BYE")) =
      (List.range half).length := by
    rw [List.countP_eq_length]
    intro i hi
    rw [List.mem_range] at hi
    have hi1 : i < teams.length := by omega
    have hi2 : n - 1 - i < teams.length := by omega
    simp only [decide_eq_true_eq]
    constructor
    · intro hc
      refine hb ?_
      rw [← hc, List.getD_eq_getElem teams "" hi1]
      exact List.getElem_mem hi1
    · intro hc
      refine hb ?_
      rw [← hc, List.getD_eq_getElem teams "" hi2]
      exact List.getElem_mem hi2
  rw [hcount, List.length_range]

lemma length_roundPairs_with_bye (teams : List String) (n half : Nat)
    (hlen : teams.length = n) (hhalf : n = 2 * half) (hnd : teams.Nodup)
    (pw : Nat) (hpw : pw < teams.length) (hw : teams.getD pw "" = "BYE") :
    (roundPairs teams n half).length = half - 1 := by
  rw [length_roundPairs]
  subst hlen
  have hfail := countP_slots_single teams half hnd hhalf "BYE" pw hpw hw
  have hsplit := List.length_eq_countP_add_countP (fun i =>
    (teams.getD i "" == "BYE") ||
      (teams.getD (teams.length - 1 - i) "" == "BYE")) (List.range half)
  rw [List.length_range, hfail] at hsplit
  have hfun : (fun i => decide (teams.getD i "" ≠ "BYE" ∧
      teams.getD (teams.length - 1 - i) "" ≠ "BYE")) =
      (fun i => decide ¬(((teams.getD i "" == "BYE") ||
        (teams.getD (teams.length - 1 - i) "" == "BYE")) = true)) := by
    funext i
    by_cases h1 : teams.getD i "" = "BYE" <;>
      by_cases h2 : teams.getD (teams.length - 1 - i) "" = "BYE" <;>
        simp [h1, h2]
  rw [hfun]
  omega

lemma mem_roundPairs_no_bye {pr : String × String} {teams : List String}
    {n half : Nat} (h : pr ∈ roundPairs teams n half) :
    pr.1 ≠ "BYE" ∧ pr.2 ≠ "BYE" := by
  unfold roundPairs at h
  obtain ⟨i, hi, hsome⟩ := List.mem_filterMap.mp h
  by_cases hc : (teams.getD i "" ≠ "BYE" ∧ teams.getD (n - 1 - i) "" ≠ "BYE")
  · rw [if_pos hc] at hsome
    have := Option.some_inj.mp hsome
    rw [← this]
    exact hc
  · rw [if_neg hc] at hsome
    cases hsome

lemma mem_rrRounds_shape :
    ∀ (k : Nat) (teams : List String) (n half : Nat) (L : List (String × String)),
      L ∈ rrRounds k teams n half →
      ∃ teams', L = roundPairs teams' n half := by
  intro k
  induction k with
  | zero => intro teams n half L h; cases h
  | succ k ih =>
      intro teams n half L h
      rcases List.mem_cons.mp h with rfl | h'
      · exact ⟨teams, rfl⟩
      · exact ih (rotateTeams teams) n half L h'

lemma no_bye_in_round_robin (l : List String) :
    ∀ pr ∈ round_robin_pairings l, pr.1 ≠ "BYE" ∧ pr.2 ≠ "BYE" := by
  intro pr h
  unfold round_robin_pairings at h
  obtain ⟨L, hL, hpr⟩ := List.mem_flatten.mp h
  obtain ⟨teams', rfl⟩ := mem_rrRounds_shape _ _ _ _ L hL
  exact mem_roundPairs_no_bye hpr

lemma length_rounds_no_bye (x : String) (t : List String)
    (hev : (x :: t).length % 2 = 0) (hb : "BYE" ∉ x :: t) :
    ((rrRounds t.length (x :: t) (t.length + 1)
      ((t.length + 1) / 2)).flatten).length =
      t.length * ((t.length + 1) / 2) := by
  have ht : t ≠ [] := by
    intro hc
    rw [hc] at hev
    simp at hev
  rw [length_rrRounds_flatten]
  have hg : ∀ r ∈ List.range t.length,
      (roundPairs (rotateTeams^[r] (x :: t)) (t.length + 1)
        ((t.length + 1) / 2)).length = (t.length + 1) / 2 := by
    intro r _
    rw [iterate_rotateTeams x t ht r]
    apply length_roundPairs_no_bye
    · simp [List.length_rotate]
    · simp only [List.length_cons] at hev
      omega
    · intro hc
      refine hb ?_
      exact (((List.rotate_perm t ((t.length - 1) * r)).cons x)).mem_iff.mp hc
  rw [List.map_congr_left hg, sum_range_const]

lemma length_rounds_with_bye (x : String) (t₀ : List String)
    (hnd : (x :: (t₀ ++ ["BYE"])).Nodup)
    (hev : (x :: (t₀ ++ ["BYE"])).length % 2 = 0) :
    ((rrRounds (t₀ ++ ["BYE"]).length (x :: (t₀ ++ ["BYE"]))
      ((t₀ ++ ["BYE"]).length + 1) (((t₀ ++ ["BYE"]).length + 1) / 2)).flatten).length =
      (t₀ ++ ["BYE"]).length * (((t₀ ++ ["BYE"]).length + 1) / 2 - 1) := by
  have ht : t₀ ++ ["BYE"] ≠ [] := by simp
  have hm : (t₀ ++ ["BYE"]).length = t₀.length + 1 := by simp
  have hbye : (t₀ ++ ["BYE"]).getD t₀.length "" = "BYE" := by
    rw [List.getD_append_right _ _ _ _ (le_refl t₀.length)]
    simp
  rw [length_rrRounds_flatten]
  have hg : ∀ r ∈ List.range (t₀ ++ ["BYE"]).length,
      (roundPairs (rotateTeams^[r] (x :: (t₀ ++ ["BYE"])))
        ((t₀ ++ ["BYE"]).length + 1) (((t₀ ++ ["BYE"]).length + 1) / 2)).length =
      ((t₀ ++ ["BYE"]).length + 1) / 2 - 1 := by
    intro r _
    rw [iterate_rotateTeams x _ ht r]
    have hposition := getD_teamsAt x (t₀ ++ ["BYE"]) r t₀.length (by omega)
    refine length_roundPairs_with_bye _ _ _ ?_ ?_ ?_
      (1 + ((t₀.length + r) % (t₀ ++ ["BYE"]).length)) ?_ ?_
    · simp [List.length_rotate]
    · simp only [List.length_cons, List.length_append, List.length_singleton,
        List.length_nil] at hev ⊢
      omega
    · exact (((List.rotate_perm _ _).cons x)).nodup_iff.mpr hnd
    · have := Nat.mod_lt (t₀.length + r)
        (show 0 < (t₀ ++ ["BYE"]).length by simp)
      simp only [List.length_cons, List.length_rotate]
      omega
    · rw [show t₀.length = (t₀ ++ ["BYE"]).length - 1 by omega] at hposition ⊢
      rw [hposition, ← show t₀.length = (t₀ ++ ["BYE"]).length - 1 by omega]
      exact hbye
  rw [List.map_congr_left hg, sum_range_const]

/-- Claim **C1** (amended: the n ≥ 2 distinct identifiers must also all differ
from the placeholder string `"BYE"` — an input containing the literal
`"BYE"` breaks the guarantee, recorded as a separate finding): for every
such list, `round_robin_pairings` returns exactly n·(n−1)/2 pairs, every
unordered pair of distinct input identifiers appears exactly once across
the output, and no returned pair contains the synthetic placeholder. -/
theorem C1_round_robin_pairings_complete (l : List String)
    (h2 : 2 ≤ l.length) (hnd : l.Nodup) (hb : "BYE" ∉ l) :
    (round_robin_pairings l).length = l.length * (l.length - 1) / 2 ∧
    (∀ u ∈ l, ∀ v ∈ l, u ≠ v →
      (round_robin_pairings l).countP (pairPred u v) = 1) ∧
    (∀ pr ∈ round_robin_pairings l, pr.1 ≠ "BYE" ∧ pr.2 ≠ "BYE") := by
  cases l with
  | nil => simp at h2
  | cons x t₀ =>
      have hlink : (x :: t₀).length = t₀.length + 1 := by simp
      by_cases hpar : (x :: t₀).length % 2 = 1
      · have hpad : round_robin_pairings (x :: t₀) =
            (rrRounds (t₀ ++ ["BYE"]).length (x :: (t₀ ++ ["BYE"]))
              ((t₀ ++ ["BYE"]).length + 1)
              (((t₀ ++ ["BYE"]).length + 1) / 2)).flatten := by
          simp only [round_robin_pairings]
          rw [if_pos hpar]
          rfl
        have hndp : (x :: (t₀ ++ ["BYE"])).Nodup := by
          have happ : ((x :: t₀) ++ ["BYE"]).Nodup := by
            rw [List.nodup_append]
            refine ⟨hnd, by simp, ?_⟩
            intro a ha
            simp only [List.mem_singleton]
            intro he
            exact hb (he ▸ ha)
          exact happ
        have hevp : (x :: (t₀ ++ ["BYE"])).length % 2 = 0 := by
          simp only [List.length_cons, List.length_append,
            List.length_singleton, List.length_nil] at hpar ⊢
          omega
        refine ⟨?_, ?_, ?_⟩
        · rw [hpad, length_rounds_with_bye x t₀ hndp hevp]
          have hm : (t₀ ++ ["BYE"]).length = t₀.length + 1 := by simp
          obtain ⟨w, hw⟩ : ∃ w, t₀.length = 2 * w := ⟨t₀.length / 2, by omega⟩
          rw [hm, hw]
          have e1 : (2 * w + 1 + 1) / 2 - 1 = w := by omega
          have e2 : (x :: t₀).length = 2 * w + 1 := by rw [hlink, hw]
          rw [e1, e2]
          have e3 : (2 * w + 1) * ((2 * w + 1) - 1) =
              2 * ((2 * w + 1) * w) := by
            have h4 : (2 * w + 1) - 1 = 2 * w := by omega
            rw [h4]
            ring
          rw [e3, Nat.mul_div_cancel_left _ (by norm_num)]
        · intro u hu v hv huv
          rw [hpad]
          refine countP_pair_rounds_main x (t₀ ++ ["BYE"]) hndp hevp u v
            ?_ ?_ huv (fun he => hb (he ▸ hu)) (fun he => hb (he ▸ hv))
          · rcases List.mem_cons.mp hu with rfl | hu'
            · exact List.mem_cons_self _ _
            · exact List.mem_cons_of_mem x (List.mem_append_left _ hu')
          · rcases List.mem_cons.mp hv with rfl | hv'
            · exact List.mem_cons_self _ _
            · exact List.mem_cons_of_mem x (List.mem_append_left _ hv')
        · exact no_bye_in_round_robin (x :: t₀)
      · have hev : (x :: t₀).length % 2 = 0 := by omega
        have hpad : round_robin_pairings (x :: t₀) =
            (rrRounds t₀.length (x :: t₀) (t₀.length + 1)
              ((t₀.length + 1) / 2)).flatten := by
          simp only [round_robin_pairings]
          rw [if_neg hpar]
          rfl
        refine ⟨?_, ?_, ?_⟩
        · rw [hpad, length_rounds_no_bye x t₀ hev hb]
          obtain ⟨w, hw⟩ : ∃ w, t₀.length = 2 * w + 1 :=
            ⟨t₀.length / 2, by omega⟩
          rw [hw]
          have e1 : (2 * w + 1 + 1) / 2 = w + 1 := by omega
          have e2 : (x :: t₀).length = 2 * w + 2 := by
            rw [hlink, hw]
          rw [e1, e2]
          have e3 : (2 * w + 2) * ((2 * w + 2) - 1) =
              2 * ((2 * w + 1) * (w + 1)) := by
            have h4 : (2 * w + 2) - 1 = 2 * w + 1 := by omega
            rw [h4]
            ring
          rw [e3, Nat.mul_div_cancel_left _ (by norm_num)]
        · intro u hu v hv huv
          rw [hpad]
          exact countP_pair_rounds_main x t₀ hnd hev u v hu hv huv
            (fun he => hb (he ▸ hu)) (fun he => hb (he ▸ hv))
        · exact no_bye_in_round_robin (x :: t₀)

/-- Claim **C1** counterexample: the input `["A", "BYE"]` consists of two
distinct identifiers, yet the scheduler returns no pair at all instead of
the promised 2·1/2 = 1 pair, because the literal `"BYE"` is
indistinguishable from the synthetic placeholder. -/
theorem C1_counterexample :
    (["A", "BYE"] : List String).Nodup ∧
    2 ≤ (["A", "BYE"] : List String).length ∧
    (round_robin_pairings ["A", "BYE"]).length = 0 ∧
    (["A", "BYE"] : List String).length *
      ((["A", "BYE"] : List String).length - 1) / 2 = 1 := by
  refine ⟨by decide, by decide, ?_, by decide⟩
  rfl

/-- Claim **C1** witness: the three-team input `["A", "B", "C"]`. -/
theorem C1_round_robin_pairings_complete_witness :
    2 ≤ (["A", "B", "C"] : List String).length ∧
    (["A", "B", "C"] : List String).Nodup ∧
    ("BYE" : String) ∉ (["A", "B", "C"] : List String) ∧
    ((round_robin_pairings ["A", "B", "C"]).length =
      (["A", "B", "C"] : List String).length *
        ((["A", "B", "C"] : List String).length - 1) / 2 ∧
    (∀ u ∈ (["A", "B", "C"] : List String),
      ∀ v ∈ (["A", "B", "C"] : List String), u ≠ v →
        (round_robin_pairings ["A", "B", "C"]).countP (pairPred u v) = 1) ∧
    (∀ pr ∈ round_robin_pairings ["A", "B", "C"],
      pr.1 ≠ "BYE" ∧ pr.2 ≠ "BYE")) :=
  ⟨by decide, by decide, by decide,
    C1_round_robin_pairings_complete ["A", "B", "C"] (by decide) (by decide)
      (by decide)⟩

/-- Claim **C9**: the literal identifier `"BYE"` is indistinguishable from the
synthetic placeholder: no output pair of `round_robin_pairings` ever
contains `"BYE"` on either side, for any input whatsoever; consequently a
real team named `"BYE"` receives no fixtures, and for the two-team input
`["A", "BYE"]` the output is empty, so the unordered pair {A, BYE} never
appears and the every-pair-exactly-once guarantee fails. -/
theorem C9_bye_identifier_collision :
    (∀ (l : List String), ∀ pr ∈ round_robin_pairings l,
        pr.1 ≠ "BYE" ∧ pr.2 ≠ "BYE") ∧
    round_robin_pairings ["A", "BYE"] = [] ∧
    (round_robin_pairings ["A", "BYE"]).countP (pairPred "A" "BYE") = 0 :=
  ⟨fun l => no_bye_in_round_robin l, rfl, rfl⟩

/-- Claim **C9** witness: a concrete output pair of a concrete run. -/
theorem C9_bye_identifier_collision_witness :
    (("B", "C") ∈ round_robin_pairings ["A", "B", "C"]) ∧
    (("B", "C") : String × String).1 ≠ "BYE" ∧
    (("B", "C") : String × String).2 ≠ "BYE" :=
  ⟨by decide,
    (C9_bye_identifier_collision.1 ["A", "B", "C"] ("B", "C") (by decide)).1,
    (C9_bye_identifier_collision.1 ["A", "B", "C"] ("B", "C") (by decide)).2⟩
